import Mathlib

/-!
Verification of the mongotron decoding core against its specification.

The development shallowly embeds the Python sources:
  * `src/event_monitor.py` (address codec `hex_to_tron_address`),
  * `src/event_monitor_fix.py` (identical copy of the codec),
  * `src/telegram-bot/bot.py` (the event decoder `format_event`, the
    helper formatters, the WebSocket event loop body, and the
    `active_monitors` session registry manipulated by the bot commands).

Bytes are `Nat` values below 256, strings are `String`/`List Char`,
Python dynamic values are the inductive `JVal`, and Python exceptions are
modelled with `Except PyErr`.
-/

set_option maxRecDepth 8000

/-- Python exceptions that the embedded code can raise. -/
inductive PyErr where
  | typeError
  | attributeError
  | valueError
  deriving DecidableEq, Repr

/-! ## Hex parsing (model of `bytes.fromhex`) -/

/-- Value of one hexadecimal digit, `none` for a non-hex character. -/
def hexDigitVal (c : Char) : Option Nat :=
  if '0' ≤ c ∧ c ≤ '9' then some (c.toNat - '0'.toNat)
  else if 'a' ≤ c ∧ c ≤ 'f' then some (c.toNat - 'a'.toNat + 10)
  else if 'A' ≤ c ∧ c ≤ 'F' then some (c.toNat - 'A'.toNat + 10)
  else none

/-- `bytes.fromhex`: parse pairs of hex digits into bytes; fails on a
non-hex character or an odd number of digits. -/
def parseHexBytes : List Char → Option (List Nat)
  | [] => some []
  | [_] => none
  | c1 :: c2 :: rest =>
    match hexDigitVal c1, hexDigitVal c2, parseHexBytes rest with
    | some v1, some v2, some bs => some ((16 * v1 + v2) :: bs)
    | _, _, _ => none

/-! ## SHA-256 (model of `hashlib.sha256`) -/

def w32 : Nat := 4294967296

def add32 (a b : Nat) : Nat := (a + b) % w32

/-- Rotate a 32-bit word right by `n` (the word is kept `< 2^32`). -/
def rotr32 (x n : Nat) : Nat := ((x >>> n) ||| (x <<< (32 - n))) % w32

def sigma0 (x : Nat) : Nat := (rotr32 x 7 ^^^ rotr32 x 18) ^^^ (x >>> 3)

def sigma1 (x : Nat) : Nat := (rotr32 x 17 ^^^ rotr32 x 19) ^^^ (x >>> 10)

def bigSigma0 (x : Nat) : Nat := (rotr32 x 2 ^^^ rotr32 x 13) ^^^ rotr32 x 22

def bigSigma1 (x : Nat) : Nat := (rotr32 x 6 ^^^ rotr32 x 11) ^^^ rotr32 x 25

def chFn (e f g : Nat) : Nat := (e &&& f) ^^^ ((e ^^^ 4294967295) &&& g)

def majFn (a b c : Nat) : Nat := ((a &&& b) ^^^ (a &&& c)) ^^^ (b &&& c)

/-- The 64 SHA-256 round constants. -/
def sha256K : List Nat :=
  [1116352408, 1899447441, 3049323471, 3921009573, 961987163,
   1508970993, 2453635748, 2870763221, 3624381080, 310598401,
   607225278, 1426881987, 1925078388, 2162078206, 2614888103,
   3248222580, 3835390401, 4022224774, 264347078, 604807628,
   770255983, 1249150122, 1555081692, 1996064986, 2554220882,
   2821834349, 2952996808, 3210313671, 3336571891, 3584528711,
   113926993, 338241895, 666307205, 773529912, 1294757372,
   1396182291, 1695183700, 1986661051, 2177026350, 2456956037,
   2730485921, 2820302411, 3259730800, 3345764771, 3516065817,
   3600352804, 4094571909, 275423344, 430227734, 506948616,
   659060556, 883997877, 958139571, 1322822218, 1537002063,
   1747873779, 1955562222, 2024104815, 2227730452, 2361852424,
   2428436474, 2756734187, 3204031479, 3329325298]

/-- The initial SHA-256 hash state H0. -/
def sha256H0 : List Nat :=
  [1779033703, 3144134277, 1013904242,
   2773480762, 1359893119, 2600822924,
   528734635, 1541459225]

/-- Extend a 16-word block to the 64-word message schedule
(`fuel` counts the 48 remaining extension steps). -/
def extendSchedule : Nat → List Nat → List Nat
  | 0, ws => ws
  | fuel + 1, ws =>
    let n := ws.length
    let x := add32 (add32 (sigma1 (ws.getD (n - 2) 0)) (ws.getD (n - 7) 0))
                   (add32 (sigma0 (ws.getD (n - 15) 0)) (ws.getD (n - 16) 0))
    extendSchedule fuel (ws ++ [x])

/-- One SHA-256 round on the working variables. -/
def compressStep (st : Nat × Nat × Nat × Nat × Nat × Nat × Nat × Nat)
    (kw : Nat × Nat) : Nat × Nat × Nat × Nat × Nat × Nat × Nat × Nat :=
  match st, kw with
  | (a, b, c, d, e, f, g, h), (k, w) =>
    let t1 := add32 (add32 (add32 h (bigSigma1 e)) (add32 (chFn e f g) k)) w
    let t2 := add32 (bigSigma0 a) (majFn a b c)
    (add32 t1 t2, a, b, c, add32 d t1, e, f, g)

/-- Compress one 16-word block into the running 8-word state. -/
def compressBlock (h : List Nat) (block : List Nat) : List Nat :=
  let ws := extendSchedule 48 block
  let st0 := (h.getD 0 0, h.getD 1 0, h.getD 2 0, h.getD 3 0,
              h.getD 4 0, h.getD 5 0, h.getD 6 0, h.getD 7 0)
  match (sha256K.zip ws).foldl compressStep st0 with
  | (a, b, c, d, e, f, g, hh) =>
    [add32 (h.getD 0 0) a, add32 (h.getD 1 0) b, add32 (h.getD 2 0) c,
     add32 (h.getD 3 0) d, add32 (h.getD 4 0) e, add32 (h.getD 5 0) f,
     add32 (h.getD 6 0) g, add32 (h.getD 7 0) hh]

/-- Big-endian 8-byte encoding of the 64-bit message bit length. -/
def lenBytes8 (n : Nat) : List Nat :=
  [(n >>> 56) % 256, (n >>> 48) % 256, (n >>> 40) % 256, (n >>> 32) % 256,
   (n >>> 24) % 256, (n >>> 16) % 256, (n >>> 8) % 256, n % 256]

/-- SHA-256 padding: `0x80`, zero bytes to 56 mod 64, then the bit length. -/
def sha256Pad (msg : List Nat) : List Nat :=
  let l := msg.length
  let z := (120 - ((l + 1) % 64)) % 64
  msg ++ 0x80 :: List.replicate z 0 ++ lenBytes8 (l * 8)

/-- Group four big-endian bytes into one 32-bit word, repeatedly. -/
def bytesToWords : List Nat → List Nat
  | b0 :: b1 :: b2 :: b3 :: rest =>
    (((b0 * 256 + b1) * 256 + b2) * 256 + b3) :: bytesToWords rest
  | _ => []

/-- Split a padded message into 64-byte blocks (`fuel` bounds the count). -/
def chunks64 : Nat → List Nat → List (List Nat)
  | 0, _ => []
  | _, [] => []
  | fuel + 1, bs => bs.take 64 :: chunks64 fuel (bs.drop 64)

/-- Big-endian bytes of one 32-bit word. -/
def wordBytes4 (w : Nat) : List Nat :=
  [(w >>> 24) % 256, (w >>> 16) % 256, (w >>> 8) % 256, w % 256]

/-- `hashlib.sha256(msg).digest()`: the 32-byte SHA-256 digest. -/
def sha256Bytes (msg : List Nat) : List Nat :=
  let padded := sha256Pad msg
  let blocks := (chunks64 (padded.length) padded).map bytesToWords
  let hFinal := blocks.foldl compressBlock sha256H0
  (hFinal.map wordBytes4).flatten

/-- First four bytes of the double SHA-256, the Tron address checksum
(`event_monitor.py` lines 58-61, `bot.py` lines 59-62). -/
def checksum4 (bs : List Nat) : List Nat := (sha256Bytes (sha256Bytes bs)).take 4

/-- Sanity: the FIPS test vector SHA-256("abc"). -/
theorem sha256_test_abc :
    sha256Bytes [0x61, 0x62, 0x63] =
      [0xba, 0x78, 0x16, 0xbf, 0x8f, 0x01, 0xcf, 0xea, 0x41, 0x41, 0x40, 0xde,
       0x5d, 0xae, 0x22, 0x23, 0xb0, 0x03, 0x61, 0xa3, 0x96, 0x17, 0x7a, 0x9c,
       0xb4, 0x10, 0xff, 0x61, 0xf2, 0x00, 0x15, 0xad] := by decide

/-- Sanity: SHA-256 of the empty message. -/
theorem sha256_test_empty :
    sha256Bytes [] =
      [0xe3, 0xb0, 0xc4, 0x42, 0x98, 0xfc, 0x1c, 0x14, 0x9a, 0xfb, 0xf4, 0xc8,
       0x99, 0x6f, 0xb9, 0x24, 0x27, 0xae, 0x41, 0xe4, 0x64, 0x9b, 0x93, 0x4c,
       0xa4, 0x95, 0x99, 0x1b, 0x78, 0x52, 0xb8, 0x55] := by decide

/-! ## Base58 (model of the `base58` library) -/

/-- The Bitcoin base58 alphabet used by the `base58` package. -/
def b58alphabet : List Char :=
  ['1', '2', '3', '4', '5', '6', '7', '8', '9',
   'A', 'B', 'C', 'D', 'E', 'F', 'G', 'H', 'J', 'K', 'L', 'M', 'N', 'P',
   'Q', 'R', 'S', 'T', 'U', 'V', 'W', 'X', 'Y', 'Z',
   'a', 'b', 'c', 'd', 'e', 'f', 'g', 'h', 'i', 'j', 'k', 'm', 'n', 'o',
   'p', 'q', 'r', 's', 't', 'u', 'v', 'w', 'x', 'y', 'z']

def b58char (d : Nat) : Char := b58alphabet.getD d '?'

def findIdxFrom (c : Char) : List Char → Nat → Option Nat
  | [], _ => none
  | a :: as, i => if a = c then some i else findIdxFrom c as (i + 1)

/-- Digit value of a base58 character, `none` for letters outside the
alphabet (the `base58` package raises `ValueError` there). -/
def b58charVal (c : Char) : Option Nat := findIdxFrom c b58alphabet 0

/-- Little-endian digits of `n` in base `b`, with explicit fuel. -/
def natDigitsBase (b : Nat) : Nat → Nat → List Nat
  | 0, _ => []
  | fuel + 1, n => if n = 0 then [] else n % b :: natDigitsBase b fuel (n / b)

/-- Little-endian digits of `n` in base `b` (`[]` for `0`). -/
def natDigits (b n : Nat) : List Nat := natDigitsBase b n n

/-- `int.from_bytes(bs, "big")`: big-endian bytes to a natural number. -/
def byteListToNat (bs : List Nat) : Nat := bs.foldl (fun n b => n * 256 + b) 0

/-- Horner evaluation of big-endian base58 digits. -/
def valsToNat (vs : List Nat) : Nat := vs.foldl (fun n d => n * 58 + d) 0

/-- `base58.b58encode`: leading zero bytes become leading `1` characters,
the rest is the big-endian base58 numeral of the value. -/
def b58encodeBytes (bs : List Nat) : List Char :=
  let stripped := bs.dropWhile (· = 0)
  let z := bs.length - stripped.length
  List.replicate z '1' ++ (natDigits 58 (byteListToNat stripped)).reverse.map b58char

/-- Map base58 characters to digit values, failing on a bad character. -/
def charsToVals : List Char → Option (List Nat)
  | [] => some []
  | c :: cs =>
    match b58charVal c, charsToVals cs with
    | some v, some vs => some (v :: vs)
    | _, _ => none

/-- `base58.b58decode`: leading `1` characters become leading zero bytes,
the rest is read as a base58 numeral and re-encoded in base 256. -/
def b58decodeBytes (s : List Char) : Option (List Nat) :=
  let stripped := s.dropWhile (· = '1')
  let z := s.length - stripped.length
  match charsToVals stripped with
  | none => none
  | some vals => some (List.replicate z 0 ++ (natDigits 256 (valsToNat vals)).reverse)

/-! ### Base58 round-trip lemmas -/

theorem natDigitsBase_eq_digits (b : Nat) (hb : 2 ≤ b) :
    ∀ fuel n, n ≤ fuel → natDigitsBase b fuel n = Nat.digits b n := by
  intro fuel
  induction fuel with
  | zero =>
    intro n hn
    interval_cases n
    simp [natDigitsBase]
  | succ f ih =>
    intro n hn
    by_cases h0 : n = 0
    · simp [natDigitsBase, h0]
    · have hdiv : n / b ≤ f := by
        have hlt : n / b < n := Nat.div_lt_self (Nat.pos_of_ne_zero h0) (by omega)
        omega
      rw [natDigitsBase, if_neg h0, ih _ hdiv,
        Nat.digits_def' (by omega : 1 < b) (Nat.pos_of_ne_zero h0)]

theorem natDigits_eq_digits (b n : Nat) (hb : 2 ≤ b) :
    natDigits b n = Nat.digits b n :=
  natDigitsBase_eq_digits b hb n n le_rfl

theorem foldl_horner (b : Nat) (l : List Nat) :
    ∀ a : Nat, l.reverse.foldl (fun n d => n * b + d) a =
      a * b ^ l.length + Nat.ofDigits b l := by
  induction l with
  | nil => intro a; simp [Nat.ofDigits]
  | cons d t ih =>
    intro a
    rw [List.reverse_cons, List.foldl_append, ih a, List.foldl_cons,
      List.foldl_nil, Nat.ofDigits_cons, List.length_cons, pow_succ]
    ring

theorem byteListToNat_eq (bs : List Nat) :
    byteListToNat bs = Nat.ofDigits 256 bs.reverse := by
  have h := foldl_horner 256 bs.reverse 0
  rw [List.reverse_reverse] at h
  simpa [byteListToNat] using h

theorem valsToNat_reverse (l : List Nat) :
    valsToNat l.reverse = Nat.ofDigits 58 l := by
  have h := foldl_horner 58 l 0
  simpa [valsToNat] using h

theorem foldl_mul_add_le (l : List Nat) :
    ∀ a : Nat, a ≤ l.foldl (fun n d => n * 256 + d) a := by
  induction l with
  | nil => intro a; simp
  | cons d t ih =>
    intro a
    calc a ≤ a * 256 + d := by nlinarith
    _ ≤ t.foldl (fun n d => n * 256 + d) (a * 256 + d) := ih _

theorem b58charVal_b58char : ∀ d, d < 58 → b58charVal (b58char d) = some d := by
  decide

theorem b58char_ne_one : ∀ d, d < 58 → d ≠ 0 → b58char d ≠ '1' := by
  decide

theorem charsToVals_map (ds : List Nat) (h : ∀ d ∈ ds, d < 58) :
    charsToVals (ds.map b58char) = some ds := by
  induction ds with
  | nil => simp [charsToVals]
  | cons d t ih =>
    have hd : d < 58 := h d (by simp)
    have ht : ∀ x ∈ t, x < 58 := fun x hx => h x (by simp [hx])
    simp only [List.map_cons, charsToVals, b58charVal_b58char d hd, ih ht]

/-- Round-trip of the base58 codec on byte strings whose first byte is
nonzero (every Tron address payload starts with `0x41`). -/
theorem b58_roundtrip (h : Nat) (t : List Nat) (hh0 : h ≠ 0) (hh : h < 256)
    (ht : ∀ x ∈ t, x < 256) :
    b58decodeBytes (b58encodeBytes (h :: t)) = some (h :: t) := by
  have hdrop : (h :: t).dropWhile (· = 0) = h :: t := by
    simp [List.dropWhile_cons, hh0]
  have hn : byteListToNat (h :: t) = Nat.ofDigits 256 (h :: t).reverse :=
    byteListToNat_eq (h :: t)
  have hrevbs : (h :: t).reverse = t.reverse ++ [h] := by simp
  have hmemrev : ∀ x ∈ (h :: t).reverse, x < 256 := by
    intro x hx
    rw [List.mem_reverse, List.mem_cons] at hx
    rcases hx with hx | hx
    · exact hx ▸ hh
    · exact ht x hx
  have hdig256 : Nat.digits 256 (byteListToNat (h :: t)) = (h :: t).reverse := by
    rw [hn]
    refine Nat.digits_ofDigits 256 (by norm_num) (h :: t).reverse hmemrev ?_
    intro hne
    rw [List.getLast_congr hne (by simp) hrevbs, List.getLast_append_singleton]
    exact hh0
  have hnpos : byteListToNat (h :: t) ≠ 0 := by
    have h1 : h ≤ byteListToNat (h :: t) := by
      have := foldl_mul_add_le t h
      simpa [byteListToNat, List.foldl_cons] using this
    omega
  have hdig58 : natDigits 58 (byteListToNat (h :: t)) =
      Nat.digits 58 (byteListToNat (h :: t)) :=
    natDigitsBase_eq_digits 58 (by norm_num) _ _ le_rfl
  have hdsne : Nat.digits 58 (byteListToNat (h :: t)) ≠ [] :=
    Nat.digits_ne_nil_iff_ne_zero.mpr hnpos
  have hdslt : ∀ d ∈ Nat.digits 58 (byteListToNat (h :: t)), d < 58 :=
    fun d hd => Nat.digits_lt_base (by norm_num) hd
  rcases List.eq_nil_or_concat (Nat.digits 58 (byteListToNat (h :: t))) with
    hnil | ⟨ds0, dl, hsplit⟩
  · exact absurd hnil hdsne
  rw [List.concat_eq_append] at hsplit
  have hdl_mem : dl ∈ Nat.digits 58 (byteListToNat (h :: t)) := by
    rw [hsplit]; simp
  have hdl_lt : dl < 58 := hdslt dl hdl_mem
  have hdl_ne : dl ≠ 0 := by
    have hlast := Nat.getLast_digit_ne_zero 58 hnpos
    rwa [List.getLast_congr _ (by simp) hsplit,
      List.getLast_append_singleton] at hlast
  have hrevds : (Nat.digits 58 (byteListToNat (h :: t))).reverse =
      dl :: ds0.reverse := by
    rw [hsplit, List.reverse_append, List.reverse_singleton, List.singleton_append]
  have henc : b58encodeBytes (h :: t) =
      (dl :: ds0.reverse).map b58char := by
    rw [b58encodeBytes]
    simp only [hdrop, Nat.sub_self, List.replicate_zero, List.nil_append,
      natDigits, natDigitsBase_eq_digits 58 (by norm_num) _ _ le_rfl, hrevds]
  have hchar_ne : ¬(b58char dl = '1') := b58char_ne_one dl hdl_lt hdl_ne
  have hvalsmem : ∀ d ∈ dl :: ds0.reverse, d < 58 := by
    intro d hd
    rw [List.mem_cons] at hd
    rcases hd with hd | hd
    · exact hd ▸ hdl_lt
    · refine hdslt d ?_
      rw [hsplit]
      exact List.mem_append.mpr (Or.inl (List.mem_reverse.mp hd))
  have hvals : charsToVals ((dl :: ds0.reverse).map b58char) =
      some (dl :: ds0.reverse) := charsToVals_map _ hvalsmem
  have hvn : valsToNat (dl :: ds0.reverse) = byteListToNat (h :: t) := by
    rw [← hrevds, valsToNat_reverse, Nat.ofDigits_digits]
  rw [List.map_cons] at hvals
  rw [henc, b58decodeBytes]
  simp only [List.map_cons, List.dropWhile_cons, decide_eq_true_eq, hchar_ne,
    if_false]
  rw [hvals]
  simp only [hvn, Nat.sub_self, List.replicate_zero, List.nil_append,
    natDigits, natDigitsBase_eq_digits 256 (by norm_num) _ _ le_rfl, hdig256,
    List.reverse_reverse, List.length_map]

/-! ### Shape of SHA-256 digests -/

theorem compressBlock_length (h b : List Nat) : (compressBlock h b).length = 8 := by
  rw [compressBlock]
  rcases (sha256K.zip (extendSchedule 48 b)).foldl compressStep
    (h.getD 0 0, h.getD 1 0, h.getD 2 0, h.getD 3 0,
     h.getD 4 0, h.getD 5 0, h.getD 6 0, h.getD 7 0) with
    ⟨a, b1, c, d, e, f, g, hh⟩
  rfl

theorem foldl_compressBlock_length (blocks : List (List Nat)) :
    ∀ h : List Nat, h.length = 8 → (blocks.foldl compressBlock h).length = 8 := by
  induction blocks with
  | nil => intro h hl; simpa using hl
  | cons b bs ih =>
    intro h hl
    rw [List.foldl_cons]
    exact ih _ (compressBlock_length h b)

theorem flatten_wordBytes4_length (l : List Nat) :
    ((l.map wordBytes4).flatten).length = 4 * l.length := by
  induction l with
  | nil => simp
  | cons w ws ih =>
    simp [wordBytes4, ih]
    omega

theorem sha256Bytes_length (msg : List Nat) : (sha256Bytes msg).length = 32 := by
  rw [sha256Bytes, flatten_wordBytes4_length,
    foldl_compressBlock_length _ sha256H0 (by rfl)]

theorem sha256Bytes_lt (msg : List Nat) : ∀ x ∈ sha256Bytes msg, x < 256 := by
  intro x hx
  rw [sha256Bytes, List.mem_flatten] at hx
  obtain ⟨l, hl, hxl⟩ := hx
  rw [List.mem_map] at hl
  obtain ⟨w, _, hw⟩ := hl
  rw [← hw, wordBytes4, List.mem_cons, List.mem_cons, List.mem_cons,
    List.mem_singleton] at hxl
  rcases hxl with h | h | h | h <;> rw [h] <;> exact Nat.mod_lt _ (by norm_num)

theorem checksum4_length (bs : List Nat) : (checksum4 bs).length = 4 := by
  rw [checksum4, List.length_take, sha256Bytes_length]
  rfl

theorem checksum4_lt (bs : List Nat) : ∀ x ∈ checksum4 bs, x < 256 := by
  intro x hx
  exact sha256Bytes_lt _ x (List.mem_of_mem_take hx)

/-! ## The address codec of `event_monitor.py` / `event_monitor_fix.py` -/

/-- Outcome of calling a Python function: a returned value or an
uncaught exception. -/
inductive PyResult where
  | returns (s : List Char)
  | raises (e : PyErr)
  deriving DecidableEq, Repr

namespace Monitor

/-- `hex_to_tron_address` lines 41-42: strip a leading `0x` or `0X`. -/
def strip0x (s : List Char) : List Char :=
  if s.take 2 = ['0', 'x'] ∨ s.take 2 = ['0', 'X'] then s.drop 2 else s

/-- Lines 41-45: strip the prefix, then strip leading zero digits
(topic-padding artifact). -/
def cleanupHex (s : List Char) : List Char := (strip0x s).dropWhile (· = '0')

/-- Lines 48-49: prepend the `41` network prefix when absent. -/
def withPrefix41 (s : List Char) : List Char :=
  if s.take 2 = ['4', '1'] then s else '4' :: '1' :: s

/-- Lines 52-53: left-pad with one `0` digit when the length is odd. -/
def padEven (s : List Char) : List Char :=
  if s.length % 2 = 1 then '0' :: s else s

/-- The full hex-string normalization performed before `bytes.fromhex`. -/
def normalizeHex (s : List Char) : List Char := padEven (withPrefix41 (cleanupHex s))

/-- `decodeAddress` of the spec: normalization followed by hex parsing
(line 56). -/
def decodeAddressBytes (s : List Char) : Option (List Nat) :=
  parseHexBytes (normalizeHex s)

/-- `toText` of the spec: append the 4-byte double-SHA256 checksum and
base58-encode (lines 58-65). -/
def toTextBytes (bs : List Nat) : List Char := b58encodeBytes (bs ++ checksum4 bs)

/-- The message text of the fallback return value (line 70); the exact
exception text is presentation, modelled by a fixed diagnostic. -/
def conversionFailedSuffix : List Char :=
  (" (conversion failed: non-hexadecimal number found in fromhex arg)").toList

/-- The `try` body of `hex_to_tron_address`: the only failing step for a
string input is `bytes.fromhex` (line 56), raising `ValueError`. -/
def hexToTronAddressCore (s : List Char) : Except PyErr (List Char) :=
  match decodeAddressBytes s with
  | none => .error .valueError
  | some bs => .ok (toTextBytes bs)

/-- `hex_to_tron_address` (`event_monitor.py` lines 29-70, and the
identical copy in `event_monitor_fix.py` lines 23-64): the `except`
clause turns any internal failure into a diagnostic string built from
the *mutated* `hex_address` variable, which at the failure point holds
the normalized hex, not the original argument. -/
def hex_to_tron_address (s : List Char) : PyResult :=
  match hexToTronAddressCore s with
  | .ok r => .returns r
  | .error _ => .returns (normalizeHex s ++ conversionFailedSuffix)

/-- Typed failures of the reverse codec direction. -/
inductive FromTextError where
  | invalidBase58
  | checksumMismatch
  deriving DecidableEq, Repr

/-- Modelled from the spec: the reverse direction `fromText` (§4.1) is
not implemented anywhere under `src/` (the sources only contain the
encode direction inside `hex_to_tron_address`); following the spec, it
base58-decodes, splits off the trailing 4 checksum bytes, recomputes the
checksum of the leading bytes, and fails with `ChecksumMismatchError` on
any mismatch. -/
def fromText (s : List Char) : Except FromTextError (List Nat) :=
  match b58decodeBytes s with
  | none => .error .invalidBase58
  | some bs =>
    let payload := bs.take (bs.length - 4)
    let cks := bs.drop (bs.length - 4)
    if cks = checksum4 payload then .ok payload else .error .checksumMismatch

end Monitor

/-! ### Properties of the codec -/

instance {e a : Type} [DecidableEq e] [DecidableEq a] : DecidableEq (Except e a) := fun x y =>
  match x, y with
  | .ok u, .ok v =>
    if h : u = v then .isTrue (congrArg Except.ok h)
    else .isFalse (fun hc => h (Except.ok.inj hc))
  | .error u, .error v =>
    if h : u = v then .isTrue (congrArg Except.error h)
    else .isFalse (fun hc => h (Except.error.inj hc))
  | .ok _, .error _ => .isFalse (fun hc => Except.noConfusion hc)
  | .error _, .ok _ => .isFalse (fun hc => Except.noConfusion hc)

theorem parseHexBytes_length : ∀ (l : List Char) (bs : List Nat),
    parseHexBytes l = some bs → l.length = 2 * bs.length
  | [], bs, h => by
      simp only [parseHexBytes, Option.some.injEq] at h
      simp [← h]
  | [_], bs, h => by simp [parseHexBytes] at h
  | c1 :: c2 :: rest, bs, h => by
      rw [parseHexBytes] at h
      cases hv1 : hexDigitVal c1 <;> rw [hv1] at h
      · cases h
      cases hv2 : hexDigitVal c2 <;> rw [hv2] at h
      · cases h
      cases hr : parseHexBytes rest <;> rw [hr] at h
      · cases h
      next bs2 =>
        injection h with h
        have ih := parseHexBytes_length rest bs2 hr
        subst h
        simp only [List.length_cons, ih]
        omega

theorem parseHexBytes_41_head (rest : List Char) (bs : List Nat)
    (h : parseHexBytes ('4' :: '1' :: rest) = some bs) : bs.head? = some 65 := by
  rw [parseHexBytes] at h
  have h4 : hexDigitVal '4' = some 4 := by decide
  have h1 : hexDigitVal '1' = some 1 := by decide
  rw [h4, h1] at h
  cases hr : parseHexBytes rest <;> rw [hr] at h
  · cases h
  · injection h with h
    subst h
    rfl

theorem normalizeHex_even (s : List Char) :
    (Monitor.normalizeHex s).length % 2 = 0 := by
  rw [Monitor.normalizeHex, Monitor.padEven]
  split
  · next hodd => simp only [List.length_cons]; omega
  · next heven => omega

theorem normalizeHex_good (s : List Char)
    (h : (Monitor.cleanupHex s).take 2 = ['4', '1'] ∧
           (Monitor.cleanupHex s).length = 42 ∨
         ¬ (Monitor.cleanupHex s).take 2 = ['4', '1'] ∧
           (Monitor.cleanupHex s).length = 40) :
    ∃ rest, Monitor.normalizeHex s = '4' :: '1' :: rest ∧ rest.length = 40 := by
  rcases h with ⟨h41, hlen⟩ | ⟨h41, hlen⟩
  · obtain ⟨rest, hrest⟩ : ∃ rest, Monitor.cleanupHex s = '4' :: '1' :: rest := by
      rcases hc : Monitor.cleanupHex s with _ | ⟨a, _ | ⟨b, r⟩⟩ <;> rw [hc] at h41
      · simp at h41
      · simp at h41
      · simp only [List.take] at h41
        injection h41 with ha h41
        injection h41 with hb _
        exact ⟨r, by rw [ha, hb]⟩
    refine ⟨rest, ?_, ?_⟩
    · rw [Monitor.normalizeHex, Monitor.withPrefix41, if_pos h41, hrest,
        Monitor.padEven, if_neg ?_]
      rw [← hrest, hlen]
      omega
    · rw [hrest] at hlen
      simp only [List.length_cons] at hlen
      omega
  · refine ⟨Monitor.cleanupHex s, ?_, hlen⟩
    rw [Monitor.normalizeHex, Monitor.withPrefix41, if_neg h41,
      Monitor.padEven, if_neg ?_]
    simp only [List.length_cons, hlen]
    omega

/-- The take-of-append and drop-of-append split used by `fromText`. -/
theorem append_split_4 (a c : List Nat) (hlen : a.length = 21)
    (hclen : c.length = 4) :
    (a ++ c).take ((a ++ c).length - 4) = a ∧
    (a ++ c).drop ((a ++ c).length - 4) = c := by
  have hl : (a ++ c).length - 4 = a.length := by
    rw [List.length_append, hclen]
    omega
  rw [hl]
  exact ⟨List.take_left a c, List.drop_left a c⟩

/-- Decoding the encoding of a 21-byte address plus any 4 trailing bytes
recovers both parts, and `fromText` then compares the trailing bytes
with the recomputed checksum. -/
theorem fromText_encode (a c : List Nat) (hlen : a.length = 21)
    (hhead : a.head? = some 65) (hmem : ∀ x ∈ a, x < 256)
    (hclen : c.length = 4) (hcmem : ∀ x ∈ c, x < 256) :
    Monitor.fromText (b58encodeBytes (a ++ c)) =
      if c = checksum4 a then .ok a else .error .checksumMismatch := by
  obtain ⟨t, rfl⟩ : ∃ t, a = 65 :: t := by
    cases a with
    | nil => cases hhead
    | cons x xs =>
      refine ⟨xs, ?_⟩
      injection hhead with hx
      rw [hx]
  have hmem2 : ∀ x ∈ t ++ c, x < 256 := by
    intro x hx
    rcases List.mem_append.mp hx with hx | hx
    · exact hmem x (by simp [hx])
    · exact hcmem x hx
  have hdec : b58decodeBytes (b58encodeBytes ((65 :: t) ++ c)) =
      some ((65 :: t) ++ c) := by
    rw [List.cons_append]
    exact b58_roundtrip 65 (t ++ c) (by norm_num) (by norm_num) hmem2
  obtain ⟨htake, hdrop⟩ := append_split_4 (65 :: t) c hlen hclen
  rw [Monitor.fromText, hdec]
  dsimp only
  rw [htake, hdrop]

/-- Scenario A input hex as a character list. -/
def scenarioAHex : List Char :=
  ['4', '1', 'd', '3', '6', '8', '2', '9', '6', '2', '0', '2', '7', 'e',
   '7', '2', '1', 'c', '5', '2', '4', '7', 'a', '9', 'f', 'a', 'f', '7',
   '8', '6', '5', 'f', 'e', '4', 'a', '7', '1', 'd', '5', '4', '3', '8']

/-- The 21 bytes of the Scenario A address. -/
def scenarioABytes : List Nat :=
  [65, 211, 104, 41, 98, 2, 126, 114, 28, 82, 71, 169, 250, 247, 134, 95,
   228, 167, 29, 84, 56]

/-- C1: round-trip law of the address codec: for every valid 21-byte
RawAddress (first byte `0x41`), `fromText (toText a) = a`, and `fromText`
fails with `ChecksumMismatchError` on any altered trailing checksum. -/
theorem addr_codec_roundtrip (a : List Nat) (hlen : a.length = 21)
    (hhead : a.head? = some 65) (hmem : ∀ x ∈ a, x < 256) :
    Monitor.fromText (Monitor.toTextBytes a) = .ok a ∧
    ∀ c : List Nat, c.length = 4 → (∀ x ∈ c, x < 256) → ¬ c = checksum4 a →
      Monitor.fromText (b58encodeBytes (a ++ c)) = .error .checksumMismatch := by
  constructor
  · rw [Monitor.toTextBytes,
      fromText_encode a (checksum4 a) hlen hhead hmem (checksum4_length a)
        (checksum4_lt a), if_pos rfl]
  · intro c h1 h2 h3
    rw [fromText_encode a c hlen hhead hmem h1 h2, if_neg h3]

/-- Witness for C1 at the Scenario A address and a wrong checksum. -/
theorem addr_codec_roundtrip_witness :
    (scenarioABytes.length = 21 ∧ scenarioABytes.head? = some 65 ∧
      (∀ x ∈ scenarioABytes, x < 256) ∧
      ([0, 0, 0, 0] : List Nat).length = 4 ∧
      (∀ x ∈ ([0, 0, 0, 0] : List Nat), x < 256) ∧
      ¬ ([0, 0, 0, 0] : List Nat) = checksum4 scenarioABytes) ∧
    Monitor.fromText (Monitor.toTextBytes scenarioABytes) = .ok scenarioABytes ∧
    Monitor.fromText (b58encodeBytes (scenarioABytes ++ [0, 0, 0, 0])) =
      .error .checksumMismatch := by
  refine ⟨⟨by decide, by decide, by decide, by decide, by decide, by decide⟩,
    (addr_codec_roundtrip scenarioABytes (by decide) (by decide) (by decide)).1,
    (addr_codec_roundtrip scenarioABytes (by decide) (by decide) (by decide)).2
      [0, 0, 0, 0] (by decide) (by decide) (by decide)⟩

/-- C4 counterexample: the claim quantifies over *every* hex-string
input, but short inputs yield fewer than 21 bytes, and odd-length inputs
get the pad digit in front of the `41` prefix, so the first byte is
`0x04`, not `0x41`. -/
theorem decodeAddress_not_always_21byte :
    Monitor.decodeAddressBytes ['f', 'f'] = some [65, 255] ∧
    ¬ ([(65 : Nat), 255].length = 21) ∧
    Monitor.decodeAddressBytes ['1', 'f', 'f'] = some [4, 17, 255] ∧
    ¬ (([(4 : Nat), 17, 255]).head? = some 65) := by
  refine ⟨by decide, by decide, by decide, by decide⟩

/-- C4 (amended): normalization always produces an even number of hex
digits; whenever the cleaned-up input has the shape of an address body
(42 digits starting `41`, or 40 digits without the prefix), the parsed
result is exactly 21 bytes and begins with `0x41`; the Scenario A input
decodes to its 21-byte address and `toText` of it is deterministic. -/
theorem decodeAddress_postcondition (s : List Char)
    (h : (Monitor.cleanupHex s).take 2 = ['4', '1'] ∧
           (Monitor.cleanupHex s).length = 42 ∨
         ¬ (Monitor.cleanupHex s).take 2 = ['4', '1'] ∧
           (Monitor.cleanupHex s).length = 40) :
    (Monitor.normalizeHex s).length % 2 = 0 ∧
    (∀ bs, Monitor.decodeAddressBytes s = some bs →
      bs.length = 21 ∧ bs.head? = some 65) ∧
    Monitor.decodeAddressBytes scenarioAHex = some scenarioABytes ∧
    Monitor.hex_to_tron_address scenarioAHex =
      Monitor.hex_to_tron_address scenarioAHex := by
  refine ⟨normalizeHex_even s, ?_, by decide, rfl⟩
  intro bs hbs
  obtain ⟨rest, hnorm, hrestlen⟩ := normalizeHex_good s h
  rw [Monitor.decodeAddressBytes, hnorm] at hbs
  have hlen := parseHexBytes_length _ _ hbs
  simp only [List.length_cons, hrestlen] at hlen
  exact ⟨by omega, parseHexBytes_41_head rest bs hbs⟩

/-- Witness for C4 at the Scenario A input. -/
theorem decodeAddress_postcondition_witness :
    ((Monitor.cleanupHex scenarioAHex).take 2 = ['4', '1'] ∧
      (Monitor.cleanupHex scenarioAHex).length = 42) ∧
    (Monitor.normalizeHex scenarioAHex).length % 2 = 0 ∧
    (∀ bs, Monitor.decodeAddressBytes scenarioAHex = some bs →
      bs.length = 21 ∧ bs.head? = some 65) ∧
    Monitor.decodeAddressBytes scenarioAHex = some scenarioABytes := by
  have h := decodeAddress_postcondition scenarioAHex (Or.inl ⟨by decide, by decide⟩)
  exact ⟨⟨by decide, by decide⟩, h.1, h.2.1, h.2.2.1⟩

/-- Boolean prefix test on character lists. -/
def charsStartWith : List Char → List Char → Bool
  | [], _ => true
  | _ :: _, [] => false
  | a :: as, b :: bs => a == b && charsStartWith as bs

/-- Boolean substring test on character lists. -/
def charsContain (needle : List Char) : List Char → Bool
  | [] => needle.isEmpty
  | c :: rest => charsStartWith needle (c :: rest) || charsContain needle rest

/-- Character-list versions of the string primitives (the byte-indexed
core `String` functions do not reduce inside the kernel). -/
def strIsEmpty (s : String) : Bool := s.toList.isEmpty

def strLength (s : String) : Nat := s.toList.length

def strStartsWith (s pre : String) : Bool := charsStartWith pre.toList s.toList

def strTake (s : String) (n : Nat) : String := String.mk (s.toList.take n)

def strDrop (s : String) (n : Nat) : String := String.mk (s.toList.drop n)

def strToLower (s : String) : String := String.mk (s.toList.map Char.toLower)

theorem charsStartWith_append_self (l r : List Char) :
    charsStartWith l (l ++ r) = true := by
  induction l with
  | nil => rfl
  | cons a t ih => simp [charsStartWith, ih]

/-- C5 counterexample: for the input `0xZZ` the conversion fails and the
fallback embeds the *normalized* string `41ZZ`, not the original input
`0xZZ`, which does not occur in the returned text at all. -/
theorem hexToTron_fallback_not_original :
    Monitor.hex_to_tron_address ['0', 'x', 'Z', 'Z'] =
      .returns (Monitor.normalizeHex ['0', 'x', 'Z', 'Z'] ++
        Monitor.conversionFailedSuffix) ∧
    charsContain ['0', 'x', 'Z', 'Z']
      (Monitor.normalizeHex ['0', 'x', 'Z', 'Z'] ++
        Monitor.conversionFailedSuffix) = false := by
  refine ⟨by decide, by decide⟩

/-- C5 (amended): on any internal failure `hex_to_tron_address` returns,
instead of raising, a fallback string that embeds the *normalized* input
hex (the argument after prefix-stripping, zero-stripping, `41`-prefixing
and padding) together with the failure diagnostic. -/
theorem hexToTron_fallback_embeds_normalized (s : List Char) (e : PyErr)
    (h : Monitor.hexToTronAddressCore s = .error e) :
    Monitor.hex_to_tron_address s =
      .returns (Monitor.normalizeHex s ++ Monitor.conversionFailedSuffix) ∧
    charsStartWith (Monitor.normalizeHex s)
      (Monitor.normalizeHex s ++ Monitor.conversionFailedSuffix) = true := by
  constructor
  · rw [Monitor.hex_to_tron_address, h]
  · exact charsStartWith_append_self _ _

/-- Witness for C5 at the failing input `0xZZ`. -/
theorem hexToTron_fallback_embeds_normalized_witness :
    Monitor.hexToTronAddressCore ['0', 'x', 'Z', 'Z'] = .error .valueError ∧
    Monitor.hex_to_tron_address ['0', 'x', 'Z', 'Z'] =
      .returns (Monitor.normalizeHex ['0', 'x', 'Z', 'Z'] ++
        Monitor.conversionFailedSuffix) :=
  ⟨by decide,
   (hexToTron_fallback_embeds_normalized ['0', 'x', 'Z', 'Z'] .valueError
     (by decide)).1⟩

/-- C9: `hex_to_tron_address` is total over all string inputs: it always
returns a string and never lets an exception escape; the result is
either the encoded address or the diagnostic fallback. -/
theorem hexToTron_total (s : List Char) :
    ∃ out, Monitor.hex_to_tron_address s = PyResult.returns out ∧
      (Monitor.hexToTronAddressCore s = .ok out ∨
       out = Monitor.normalizeHex s ++ Monitor.conversionFailedSuffix) := by
  rw [Monitor.hex_to_tron_address]
  cases h : Monitor.hexToTronAddressCore s with
  | ok r => exact ⟨r, rfl, Or.inl rfl⟩
  | error e => exact ⟨_, rfl, Or.inr rfl⟩

/-! ## Python dynamic values (the JSON payloads consumed by `bot.py`) -/

/-- A Python/JSON value as delivered by `json.loads`. -/
inductive JVal where
  | null
  | bool (b : Bool)
  | int (n : Int)
  | str (s : String)
  | arr (xs : List JVal)
  | obj (fs : List (String × JVal))

/-- Python `v == "literal"` comparison: equality against a string is
`False` for every non-string value, without raising. -/
def jEqStr (v : JVal) (s : String) : Bool :=
  match v with
  | .str t => t == s
  | _ => false

/-- Python truthiness. -/
def truthy : JVal → Bool
  | .null => false
  | .bool b => b
  | .int n => n != 0
  | .str s => !strIsEmpty s
  | .arr xs => !xs.isEmpty
  | .obj fs => !fs.isEmpty

/-- First-match lookup in a dictionary (Python dicts have unique keys;
first-match agrees on every state the program builds). -/
def lookupField : List (String × JVal) → String → Option JVal
  | [], _ => none
  | (k, v) :: fs, key => if k = key then some v else lookupField fs key

mutual

/-- Python `repr`, used by f-string interpolation of containers
(string escaping is not modelled). -/
def pyRepr : JVal → String
  | .null => "None"
  | .bool b => if b then "True" else "False"
  | .int n => toString n
  | .str s => "\x27" ++ s ++ "\x27"
  | .arr xs => "[" ++ String.intercalate ", " (pyReprList xs) ++ "]"
  | .obj fs => "\x7b" ++ String.intercalate ", " (pyReprPairs fs) ++ "\x7d"

def pyReprList : List JVal → List String
  | [] => []
  | v :: vs => pyRepr v :: pyReprList vs

def pyReprPairs : List (String × JVal) → List String
  | [] => []
  | (k, v) :: fs => ("\x27" ++ k ++ "\x27: " ++ pyRepr v) :: pyReprPairs fs

end

/-- Python `str`, as used by f-string interpolation. -/
def pyStr : JVal → String
  | .str s => s
  | v => pyRepr v

/-- `v.get(key)` — `AttributeError` unless `v` is a dict; a missing key
yields Python `None`. -/
def pyGet (v : JVal) (k : String) : Except PyErr JVal :=
  match v with
  | .obj fs => .ok ((lookupField fs k).getD .null)
  | _ => .error .attributeError

/-- `v.get(key, default)` — `AttributeError` unless `v` is a dict. -/
def pyGetD (v : JVal) (k : String) (d : JVal) : Except PyErr JVal :=
  match v with
  | .obj fs => .ok ((lookupField fs k).getD d)
  | _ => .error .attributeError

/-- `event.get(key)` on a receiver that is statically known to be a dict. -/
def objGet (fs : List (String × JVal)) (k : String) : JVal :=
  (lookupField fs k).getD .null

/-- `event.get(key, default)` on a known dict. -/
def objGetD (fs : List (String × JVal)) (k : String) (d : JVal) : JVal :=
  (lookupField fs k).getD d

/-- `key in event` on a known dict. -/
def pyHasKey (fs : List (String × JVal)) (k : String) : Bool :=
  (lookupField fs k).isSome

/-- Python short-circuit `a or b` (the value, not a Bool). -/
def pyOr (a b : JVal) : JVal := if truthy a then a else b

/-- `len(v)` — `TypeError` for numbers, booleans and `None`. -/
def pyLen : JVal → Except PyErr Nat
  | .str s => .ok (strLength s)
  | .arr xs => .ok xs.length
  | .obj fs => .ok fs.length
  | _ => .error .typeError

/-- `v[:n]` — `TypeError` unless `v` is a sequence. -/
def pySliceTake (v : JVal) (n : Nat) : Except PyErr JVal :=
  match v with
  | .str s => .ok (.str (strTake s n))
  | .arr xs => .ok (.arr (xs.take n))
  | _ => .error .typeError

/-- `v[-n:]` — `TypeError` unless `v` is a sequence. -/
def pySliceTakeRight (v : JVal) (n : Nat) : Except PyErr JVal :=
  match v with
  | .str s => .ok (.str (strDrop s (strLength s - n)))
  | .arr xs => .ok (.arr (xs.drop (xs.length - n)))
  | _ => .error .typeError

/-- `v > 0` — `TypeError` for non-numeric values (Python 3 forbids
ordering across types); booleans compare as 0/1. -/
def pyGtZero : JVal → Except PyErr Bool
  | .int n => .ok (decide (0 < n))
  | .bool b => .ok b
  | _ => .error .typeError

/-- Numeric value of an int/bool operand (callers guard the type). -/
def pyNumVal : JVal → Int
  | .int n => n
  | .bool b => if b then 1 else 0
  | _ => 0

/-- `for x in v` — the iterated elements (strings yield their
characters, dicts their keys); `TypeError` for non-iterables. -/
def pyIterate : JVal → Except PyErr (List JVal)
  | .arr xs => .ok xs
  | .str s => .ok (s.toList.map (fun c => .str (String.mk [c])))
  | .obj fs => .ok (fs.map (fun kv => .str kv.1))
  | _ => .error .typeError

def parseDigitsAux : List Char → Nat → Option Nat
  | [], acc => some acc
  | c :: cs, acc =>
    if '0' ≤ c ∧ c ≤ '9' then parseDigitsAux cs (acc * 10 + (c.toNat - '0'.toNat))
    else none

def parseDigits : List Char → Option Nat
  | [] => none
  | cs => parseDigitsAux cs 0

/-- `int(s)` for a string: optional sign followed by decimal digits
(whitespace/underscore tolerance of CPython is not modelled). -/
def parsePyInt (s : String) : Option Int :=
  match s.toList with
  | '-' :: rest => (parseDigits rest).map (fun n => -(n : Int))
  | '+' :: rest => (parseDigits rest).map (fun n => (n : Int))
  | cs => (parseDigits cs).map (fun n => (n : Int))

/-- `int(v)`: identity on ints, 0/1 on booleans, decimal parse on
strings (`ValueError` when malformed), `TypeError` otherwise. -/
def pyIntConv : JVal → Except PyErr Int
  | .int n => .ok n
  | .bool b => .ok (if b then 1 else 0)
  | .str s =>
    match parsePyInt s with
    | some n => .ok n
    | none => .error .valueError
  | _ => .error .typeError

/-- Decimal digits of `n` left-padded with zeros to width 6. -/
def zeroPad6 (n : Nat) : String :=
  let s := toString n
  String.mk (List.replicate (6 - strLength s) '0') ++ s

/-- `f-string` rendering of `minor/10^6` with format `:.6f`.  The Python
code divides by `1_000_000` in floats; on every value the claims
evaluate the float is exact, so the fixed-point rendering coincides. -/
def formatFixed6 (n : Int) : String :=
  (if n < 0 then "-" else "") ++ toString (n.natAbs / 1000000) ++ "." ++
    zeroPad6 (n.natAbs % 1000000)

def groupAux : List Char → Nat → List Char
  | [], _ => []
  | c :: cs, i =>
    if i = 2 then c :: (if cs.isEmpty then [] else ',' :: groupAux cs 0)
    else c :: groupAux cs (i + 1)

/-- Insert thousands separators in a digit string. -/
def groupThousands (s : String) : String :=
  String.mk ((groupAux s.toList.reverse 0).reverse)

/-- `f-string` rendering with format `:,.6f` (thousands-grouped). -/
def formatComma6 (n : Int) : String :=
  (if n < 0 then "-" else "") ++ groupThousands (toString (n.natAbs / 1000000)) ++
    "." ++ zeroPad6 (n.natAbs % 1000000)

/-! ## `bot.py`: formatter helpers -/

namespace TgBot

/-- `hex_to_base58` (`bot.py` lines 46-71): encode a `41`-prefixed hex
address; every failure (caught by the blanket `except`) returns the
original argument unchanged. -/
def hex_to_base58 (s : String) : String :=
  if strIsEmpty s then s
  else if strStartsWith s "41" then
    match parseHexBytes s.toList with
    | none => s
    | some bs => String.mk (b58encodeBytes (bs ++ checksum4 bs))
  else s

/-- `format_address` (lines 74-78): truncate the middle for display. -/
def format_address (s : String) : String :=
  if strLength s > 10 then strTake s 6 ++ "..." ++ strDrop s (strLength s - 4)
  else s

/-- The contract-type table of `format_contract_type` (lines 83-141). -/
def contractTypeTable : List (String × String) :=
  [("TransferContract", "💸 TRX Transfer"),
   ("TransferAssetContract", "🪙 TRC10 Token Transfer"),
   ("TriggerSmartContract", "⚙️ Smart Contract Call"),
   ("CreateSmartContract", "📝 Create Smart Contract"),
   ("UpdateSettingContract", "⚙️ Update Contract Settings"),
   ("UpdateEnergyLimitContract", "⚡ Update Energy Limit"),
   ("FreezeBalanceContract", "❄️ Freeze Balance"),
   ("UnfreezeBalanceContract", "🔥 Unfreeze Balance"),
   ("FreezeBalanceV2Contract", "❄️ Freeze Balance (v2)"),
   ("UnfreezeBalanceV2Contract", "🔥 Unfreeze Balance (v2)"),
   ("WithdrawExpireUnfreezeContract", "💰 Withdraw Unfrozen"),
   ("DelegateResourceContract", "🤝 Delegate Resources"),
   ("UnDelegateResourceContract", "↩️ Undelegate Resources"),
   ("WithdrawBalanceContract", "💵 Withdraw Rewards"),
   ("VoteWitnessContract", "🗳️ Vote for Witness"),
   ("AccountCreateContract", "👤 Create Account"),
   ("AccountUpdateContract", "✏️ Update Account"),
   ("SetAccountIdContract", "🆔 Set Account ID"),
   ("AccountPermissionUpdateContract", "🔐 Update Permissions"),
   ("WitnessCreateContract", "🏛️ Create Witness"),
   ("WitnessUpdateContract", "🏛️ Update Witness"),
   ("UpdateBrokerageContract", "💼 Update Brokerage"),
   ("AssetIssueContract", "🎫 Issue Asset"),
   ("UpdateAssetContract", "🎫 Update Asset"),
   ("ParticipateAssetIssueContract", "🛒 Buy Asset"),
   ("UnfreezeAssetContract", "🔓 Unfreeze Asset"),
   ("ProposalCreateContract", "📋 Create Proposal"),
   ("ProposalApproveContract", "✅ Approve Proposal"),
   ("ProposalDeleteContract", "🗑️ Delete Proposal"),
   ("ExchangeCreateContract", "🔄 Create Exchange"),
   ("ExchangeInjectContract", "💉 Inject to Exchange"),
   ("ExchangeWithdrawContract", "💰 Withdraw from Exchange"),
   ("ExchangeTransactionContract", "🔁 Exchange Transaction"),
   ("MarketSellAssetContract", "📉 Market Sell"),
   ("MarketCancelOrderContract", "❌ Cancel Market Order"),
   ("ShieldedTransferContract", "🛡️ Shielded Transfer")]

def strTableLookup : List (String × String) → String → Option String
  | [], _ => none
  | (k, v) :: fs, key => if k = key then some v else strTableLookup fs key

/-- `format_contract_type` (lines 81-143): `type_mapping.get(ct, f)` —
unhashable keys (lists, dicts) raise `TypeError`, any other value falls
through to the `📄`-prefixed echo of the raw tag. -/
def format_contract_type (v : JVal) : Except PyErr String :=
  match v with
  | .str s => .ok ((strTableLookup contractTypeTable s).getD ("📄 " ++ s))
  | .arr _ => .error .typeError
  | .obj _ => .error .typeError
  | other => .ok ("📄 " ++ pyStr other)

/-- `format_tx_link` (lines 146-153). -/
def format_tx_link (v : JVal) : Except PyErr String :=
  if !truthy v then .ok "N/A"
  else do
    let n ← pyLen v
    let short ← if n > 20 then do
        let a ← pySliceTake v 10
        let b ← pySliceTakeRight v 10
        pure (pyStr a ++ "..." ++ pyStr b)
      else pure (pyStr v)
    pure ("<a href=\"https://nile.tronscan.org/#/transaction/" ++ pyStr v ++
      "\">" ++ short ++ "</a>")

/-- The string case of `format_address_link` (lines 156-167). -/
def addressLinkOfStr (s : String) : String :=
  if strIsEmpty s then "N/A"
  else
    let address := if strStartsWith s "41" then hex_to_base58 s else s
    let short := if strLength address > 20 then
        strTake address 10 ++ "..." ++ strDrop address (strLength address - 10)
      else address
    "<a href=\"https://nile.tronscan.org/#/address/" ++ address ++ "\">" ++
      short ++ "</a>"

/-- `format_address_link` (lines 156-167): `address.startswith` raises
`AttributeError` for truthy non-strings. -/
def format_address_link (v : JVal) : Except PyErr String :=
  if !truthy v then .ok "N/A"
  else match v with
    | .str s => .ok (addressLinkOfStr s)
    | _ => .error .attributeError

/-- `format_block_link` (lines 170-176). -/
def format_block_link (v : JVal) : String :=
  if !truthy v then "N/A"
  else "<a href=\"https://nile.tronscan.org/#/block/" ++ pyStr v ++ "\">" ++
    pyStr v ++ "</a>"

/-- `params.items()` — `AttributeError` unless a dict. -/
def pyItems : JVal → Except PyErr (List (String × JVal))
  | .obj fs => .ok fs
  | _ => .error .attributeError

/-- One parameter display line (lines 298-308). -/
def paramLine (kv : String × JVal) : Option String :=
  match kv.2 with
  | .str s =>
    if strStartsWith s "41" && strLength s == 42 then
      some ("      • " ++ kv.1 ++ ": " ++ addressLinkOfStr s)
    else if strStartsWith s "T" && strLength s == 34 then
      some ("      • " ++ kv.1 ++ ": " ++ addressLinkOfStr s)
    else if strLength s < 50 then
      some ("      • " ++ kv.1 ++ ": <code>" ++ s ++ "</code>")
    else none
  | _ => none

/-- The alias keys of the minimal-field check (line 187). -/
def aliasKeys : List String :=
  ["BlockNumber", "blockNumber", "TransactionID", "TransactionHash",
   "txHash", "From", "from", "To", "to", "ContractType", "contractType"]

/-- The contract-type specific extra lines (`bot.py` lines 233-262). -/
def branchLines (fs : List (String × JVal)) (eventData ct : JVal) :
    Except PyErr (List String) :=
  if jEqStr ct "DelegateResourceContract" || jEqStr ct "UnDelegateResourceContract" then do
    let resource ← pyGetD eventData "resource" (.str "BANDWIDTH")
    let balance ← pyGetD eventData "balance" (.int 0)
    let gt ← pyGtZero balance
    if gt then
      pure ["", "   💎 Resource: <b>" ++ pyStr resource ++ "</b>",
            "   💰 Amount: <b>" ++ formatFixed6 (pyNumVal balance) ++ " TRX</b>"]
    else pure [""]
  else if jEqStr ct "VoteWitnessContract" then do
    let votes ← pyGetD eventData "votes" (.arr [])
    if truthy votes then do
      let n ← pyLen votes
      pure ["", "   🗳️ Voting for " ++ toString n ++ " witness(es)"]
    else pure [""]
  else if jEqStr ct "FreezeBalanceContract" || jEqStr ct "UnfreezeBalanceContract" ||
      jEqStr ct "FreezeBalanceV2Contract" || jEqStr ct "UnfreezeBalanceV2Contract" then do
    let gt ← pyGtZero (objGetD fs "Amount" (.int 0))
    if gt then do
      let resource ← pyGetD eventData "resource" (.str "ENERGY")
      pure ["", "   💎 Resource: <b>" ++ pyStr resource ++ "</b>",
            "   💰 Amount: <b>" ++
              formatFixed6 (pyNumVal (objGetD fs "Amount" (.int 0))) ++ " TRX</b>"]
    else pure [""]
  else if jEqStr ct "AccountCreateContract" then
    pure ["", "   🆕 New account created!"]
  else pure []

/-- Lines 270-277: the method-name line. -/
def scMethodLines (methodName methodSig : JVal) : List String :=
  if truthy methodName then
    ["   ⚙️ Method: <code>" ++ pyStr methodName ++ "</code>"]
  else if truthy methodSig then
    ["   ⚙️ Method: <code>0x" ++ pyStr methodSig ++ "</code> (unknown)"]
  else []

/-- Lines 279-283: the first three parameter addresses as links. -/
def scAddrLinesBlock (addresses : JVal) : Except PyErr (List String) :=
  if truthy addresses then do
    let sl ← pySliceTake addresses 3
    let items ← pyIterate sl
    let links ← items.mapM format_address_link
    pure ("   📍 Param Addresses:" :: links.map (fun l => "      • " ++ l))
  else pure []

/-- Lines 285-292: the token-amount line; `int()` failures fall back to
showing the raw value. -/
def scAmountLines (scAmount : JVal) : List String :=
  if truthy scAmount then
    match pyIntConv scAmount with
    | .ok n => ["   💵 Token Amount: <code>" ++ formatComma6 n ++ "</code>"]
    | .error _ => ["   💵 Token Amount: <code>" ++ pyStr scAmount ++ "</code>"]
  else []

/-- Lines 294-308: up to three decoded parameters. -/
def scParamsBlock (params : JVal) : Except PyErr (List String) :=
  if truthy params then do
    let items ← pyItems params
    pure ("   📝 Parameters:" :: (items.take 3).filterMap paramLine)
  else pure []

/-- The smart-contract details block (`bot.py` lines 264-308), applied
to the resolved `sc` value when it is truthy. -/
def scDetailLines (sc : JVal) : Except PyErr (List String) := do
  let methodName ← pyGet sc "methodName"
  let methodSig ← pyGet sc "methodSignature"
  let addresses ← pyGetD sc "addresses" (.arr [])
  let addrLines ← scAddrLinesBlock addresses
  let scAmount ← pyGet sc "amount"
  let params ← pyGetD sc "parameters" (.obj [])
  let paramLines ← scParamsBlock params
  pure (["", "🔍 <b>Smart Contract Details:</b>"] ++
    scMethodLines methodName methodSig ++ addrLines ++
    scAmountLines scAmount ++ paramLines)

/-- Lines 206-209: the transaction-hash line. -/
def txLineBlock (v : JVal) : Except PyErr (List String) :=
  if truthy v then do
    let l ← format_tx_link v
    pure ["🔗 TX: " ++ l]
  else pure []

/-- Lines 211-218: a from/to address line. -/
def addrLineBlock (label : String) (v : JVal) : Except PyErr (List String) :=
  if truthy v then do
    let l ← format_address_link v
    pure [label ++ l]
  else pure []

/-- Lines 220-224: the TRX amount line. -/
def amountLineBlock (v : JVal) : Except PyErr (List String) :=
  if truthy v then do
    let gt ← pyGtZero v
    if gt then
      pure ["💰 Amount: <b>" ++ formatFixed6 (pyNumVal v) ++ " TRX</b>"]
    else pure []
  else pure []

/-- Lines 226-230: the contract-type line. -/
def ctLineBlock (v : JVal) : Except PyErr (List String) :=
  if truthy v then do
    let f ← format_contract_type v
    pure ["📋 Type: <b>" ++ f ++ "</b>"]
  else pure []

/-- Lines 266-308 gated by the truthiness test on line 266. -/
def scBlock (sc : JVal) : Except PyErr (List String) :=
  if truthy sc then scDetailLines sc else pure []

/-- `format_event` (`bot.py` lines 179-314) as the list of message
lines it appends; `now` stands for `datetime.now().strftime` on the
final line.  `None` results are `Option.none`; uncaught exceptions are
`Except.error`. -/
def formatEventLines (event : JVal) (now : String) :
    Except PyErr (Option (List String)) :=
  match event with
  | .obj fs =>
    if fs.isEmpty then .ok none
    else if !(aliasKeys.any (fun k => pyHasKey fs k)) then .ok none
    else do
      let txLines ← txLineBlock (pyOr (objGet fs "TransactionID")
        (pyOr (objGet fs "TransactionHash") (objGet fs "txHash")))
      let fromLines ← addrLineBlock "📤 From: "
        (pyOr (objGet fs "From") (objGet fs "from"))
      let toLines ← addrLineBlock "📥 To: "
        (pyOr (objGet fs "To") (objGet fs "to"))
      let amountLines ← amountLineBlock
        (pyOr (objGet fs "Amount") (objGet fs "amount"))
      let ctLines ← ctLineBlock
        (pyOr (objGet fs "ContractType") (objGet fs "contractType"))
      let extraLines ← branchLines fs (objGetD fs "EventData" (.obj []))
        (pyOr (objGet fs "ContractType") (objGet fs "contractType"))
      let scGot ← pyGet (objGetD fs "EventData" (.obj [])) "smartContract"
      let scLines ← scBlock (pyOr scGot (objGetD fs "smartContract" (.obj [])))
      pure (some (["🔔 <b>New Transaction Detected</b>",
        String.mk (List.replicate 40 '─')] ++
        (if truthy (pyOr (objGet fs "BlockNumber") (objGet fs "blockNumber")) then
          ["📦 Block: " ++ format_block_link
            (pyOr (objGet fs "BlockNumber") (objGet fs "blockNumber"))]
        else []) ++ txLines ++ fromLines ++ toLines ++ amountLines ++
        ctLines ++ extraLines ++ scLines ++ ["\n⏰ " ++ now]))
  | _ => .ok none

/-- `format_event` joined to the returned message string. -/
def format_event (event : JVal) (now : String) : Except PyErr (Option String) :=
  (formatEventLines event now).map (fun o => o.map (String.intercalate "\n"))

end TgBot

/-! ### Type conditions under which `format_event` cannot raise -/

namespace TgBot

def isStrB : JVal → Bool
  | .str _ => true
  | _ => false

def isObjB : JVal → Bool
  | .obj _ => true
  | _ => false

def intLikeB : JVal → Bool
  | .int _ => true
  | .bool _ => true
  | _ => false

def lenableB : JVal → Bool
  | .str _ => true
  | .arr _ => true
  | .obj _ => true
  | _ => false

/-- The value is either falsy (so the line is skipped) or a string. -/
def strOrFalsyB (v : JVal) : Bool := !truthy v || isStrB v

/-- A key that, when present, holds an int or bool. -/
def intLikeOrAbsentB (fs : List (String × JVal)) (k : String) : Bool :=
  match lookupField fs k with
  | none => true
  | some v => intLikeB v

/-- A hashable (or falsy) contract-type tag. -/
def hashableOrFalsyB (v : JVal) : Bool := !truthy v || isStrB v || intLikeB v

/-- A usable `addresses` value: a string, a list of falsy-or-string
entries, or anything falsy. -/
def addrParamOkB : JVal → Bool
  | .str _ => true
  | .arr xs => xs.all strOrFalsyB
  | v => !truthy v

def objOrFalsyB (v : JVal) : Bool := !truthy v || isObjB v

/-- Sufficient well-typedness of an event object: every field that
`format_event` reads has a type its Python operations accept. -/
def WellTyped (fs : List (String × JVal)) : Bool :=
  isObjB (objGetD fs "EventData" (.obj [])) &&
  strOrFalsyB (pyOr (objGet fs "TransactionID")
    (pyOr (objGet fs "TransactionHash") (objGet fs "txHash"))) &&
  strOrFalsyB (pyOr (objGet fs "From") (objGet fs "from")) &&
  strOrFalsyB (pyOr (objGet fs "To") (objGet fs "to")) &&
  intLikeOrAbsentB fs "Amount" &&
  intLikeOrAbsentB fs "amount" &&
  hashableOrFalsyB (pyOr (objGet fs "ContractType") (objGet fs "contractType")) &&
  (match objGetD fs "EventData" (.obj []) with
   | .obj efs =>
     intLikeOrAbsentB efs "balance" &&
     (!truthy (objGetD efs "votes" (.arr [])) ||
       lenableB (objGetD efs "votes" (.arr []))) &&
     (!truthy (pyOr (objGet efs "smartContract")
         (objGetD fs "smartContract" (.obj []))) ||
       (match pyOr (objGet efs "smartContract")
           (objGetD fs "smartContract" (.obj [])) with
        | .obj sfs =>
          addrParamOkB (objGetD sfs "addresses" (.arr [])) &&
          objOrFalsyB (objGetD sfs "parameters" (.obj []))
        | _ => false))
   | _ => false)

theorem format_tx_link_str_ok (s : String) : ∃ r, format_tx_link (.str s) = .ok r := by
  rw [format_tx_link]
  split
  · exact ⟨_, rfl⟩
  · simp only [pyLen, pySliceTake, pySliceTakeRight, Bind.bind, Except.bind]
    split <;> exact ⟨_, rfl⟩

theorem txLineBlock_ok (v : JVal) (h : strOrFalsyB v = true) :
    ∃ r, txLineBlock v = .ok r := by
  rw [txLineBlock]
  split
  · next ht =>
    rw [strOrFalsyB, ht] at h
    simp only [Bool.not_true, Bool.false_or] at h
    cases v with
    | str s =>
      obtain ⟨l, hl⟩ := format_tx_link_str_ok s
      rw [show (do
        let l ← format_tx_link (JVal.str s)
        pure ["🔗 TX: " ++ l] : Except PyErr (List String)) =
          Except.bind (format_tx_link (JVal.str s))
            (fun l => pure ["🔗 TX: " ++ l]) from rfl, hl]
      exact ⟨_, rfl⟩
    | _ => simp [isStrB] at h
  · exact ⟨_, rfl⟩

theorem addrLineBlock_ok (label : String) (v : JVal) (h : strOrFalsyB v = true) :
    ∃ r, addrLineBlock label v = .ok r := by
  rw [addrLineBlock]
  split
  · next ht =>
    rw [strOrFalsyB, ht] at h
    simp only [Bool.not_true, Bool.false_or] at h
    cases v with
    | str s =>
      rw [show (do
        let l ← format_address_link (JVal.str s)
        pure [label ++ l] : Except PyErr (List String)) =
          Except.bind (format_address_link (JVal.str s))
            (fun l => pure [label ++ l]) from rfl,
        format_address_link, if_neg (by simp [ht])]
      exact ⟨_, rfl⟩
    | _ => simp [isStrB] at h
  · exact ⟨_, rfl⟩

theorem amountLineBlock_ok (v : JVal) (h : truthy v = true → intLikeB v = true) :
    ∃ r, amountLineBlock v = .ok r := by
  rw [amountLineBlock]
  split
  · next ht =>
    cases v with
    | int n =>
      simp only [pyGtZero, Bind.bind, Except.bind]
      split <;> exact ⟨_, rfl⟩
    | bool b =>
      simp only [pyGtZero, Bind.bind, Except.bind]
      split <;> exact ⟨_, rfl⟩
    | _ => simp [intLikeB] at h; simp [h] at ht
  · exact ⟨_, rfl⟩

theorem ctLineBlock_ok (v : JVal) (h : hashableOrFalsyB v = true) :
    ∃ r, ctLineBlock v = .ok r := by
  rw [ctLineBlock]
  split
  · next ht =>
    rw [hashableOrFalsyB, ht] at h
    simp only [Bool.not_true, Bool.false_or, Bool.or_eq_true] at h
    cases v with
    | str s => exact ⟨_, rfl⟩
    | int n => exact ⟨_, rfl⟩
    | bool b => exact ⟨_, rfl⟩
    | null => exact ⟨_, rfl⟩
    | arr xs => simp [isStrB, intLikeB] at h
    | obj ofs => simp [isStrB, intLikeB] at h
  · exact ⟨_, rfl⟩

theorem bind_exists_ok {a b : Type} (e : Except PyErr a) (f : a → Except PyErr b)
    (he : ∃ x, e = .ok x) (hf : ∀ x, e = .ok x → ∃ y, f x = .ok y) :
    ∃ y, (e >>= f) = .ok y := by
  obtain ⟨x, hx⟩ := he
  obtain ⟨y, hy⟩ := hf x hx
  exact ⟨y, by rw [hx]; exact hy⟩

theorem pyGtZero_ok_of_intLike (v : JVal) (h : intLikeB v = true) :
    ∃ b, pyGtZero v = .ok b := by
  cases v <;> first | exact ⟨_, rfl⟩ | simp [intLikeB] at h

theorem branchLines_ok (fs efs : List (String × JVal)) (ct : JVal)
    (hbal : intLikeOrAbsentB efs "balance" = true)
    (hvotes : (!truthy (objGetD efs "votes" (.arr [])) ||
      lenableB (objGetD efs "votes" (.arr []))) = true)
    (hAmt : intLikeOrAbsentB fs "Amount" = true) :
    ∃ r, branchLines fs (.obj efs) ct = .ok r := by
  rw [branchLines]
  split
  · -- delegate branch
    apply bind_exists_ok
    · exact ⟨_, rfl⟩
    · intro resource _
      apply bind_exists_ok
      · exact ⟨_, rfl⟩
      · intro balance hb
        apply bind_exists_ok
        · apply pyGtZero_ok_of_intLike
          have hbeq : balance = (lookupField efs "balance").getD (.int 0) := by
            rw [pyGetD] at hb
            exact (Except.ok.inj hb).symm
          rw [hbeq]
          cases hl : lookupField efs "balance" with
          | none => rfl
          | some v =>
            rw [intLikeOrAbsentB, hl] at hbal
            simpa using hbal
        · intro gt _
          split <;> exact ⟨_, rfl⟩
  · split
    · -- vote branch
      apply bind_exists_ok
      · exact ⟨_, rfl⟩
      · intro votes hv
        have hveq : votes = objGetD efs "votes" (.arr []) := by
          rw [pyGetD] at hv
          rw [objGetD]
          exact (Except.ok.inj hv).symm
        split
        · next htruthy =>
          apply bind_exists_ok
          · rw [hveq]
            rw [hveq] at htruthy
            rw [htruthy, Bool.not_true, Bool.false_or] at hvotes
            cases hvv : objGetD efs "votes" (.arr []) <;>
              rw [hvv] at hvotes <;> first | exact ⟨_, rfl⟩ | simp [lenableB] at hvotes
          · intro n _
            exact ⟨_, rfl⟩
        · exact ⟨_, rfl⟩
    · split
      · -- freeze branch
        apply bind_exists_ok
        · apply pyGtZero_ok_of_intLike
          rw [objGetD]
          cases hl : lookupField fs "Amount" with
          | none => rfl
          | some v =>
            rw [intLikeOrAbsentB, hl] at hAmt
            simpa using hAmt
        · intro gt _
          split
          · apply bind_exists_ok
            · exact ⟨_, rfl⟩
            · intro resource _
              exact ⟨_, rfl⟩
          · exact ⟨_, rfl⟩
      · split
        · exact ⟨_, rfl⟩
        · exact ⟨_, rfl⟩

theorem format_address_link_ok (v : JVal) (h : strOrFalsyB v = true) :
    ∃ l, format_address_link v = .ok l := by
  cases v with
  | str s =>
    rw [format_address_link]
    simp only [truthy, Bool.not_not]
    cases hse : strIsEmpty s
    · exact ⟨_, rfl⟩
    · exact ⟨_, rfl⟩
  | null => exact ⟨_, rfl⟩
  | bool b =>
    have hb : b = false := by simpa [strOrFalsyB, isStrB, truthy] using h
    subst hb
    exact ⟨_, rfl⟩
  | int n =>
    have hn : n = 0 := by simpa [strOrFalsyB, isStrB, truthy] using h
    subst hn
    exact ⟨_, rfl⟩
  | arr xs =>
    have hx : xs = [] := by simpa [strOrFalsyB, isStrB, truthy] using h
    subst hx
    exact ⟨_, rfl⟩
  | obj ofs =>
    have hx : ofs = [] := by simpa [strOrFalsyB, isStrB, truthy] using h
    subst hx
    exact ⟨_, rfl⟩

theorem mapM_addrLink_ok : ∀ (items : List JVal),
    (∀ x ∈ items, strOrFalsyB x = true) →
    ∃ r, items.mapM format_address_link = .ok r
  | [], _ => ⟨[], rfl⟩
  | x :: xs, h => by
    obtain ⟨l, hl⟩ := format_address_link_ok x (h x (by simp))
    obtain ⟨r, hr⟩ := mapM_addrLink_ok xs (fun y hy => h y (by simp [hy]))
    refine ⟨l :: r, ?_⟩
    rw [List.mapM_cons, hl, hr]
    rfl

theorem scAddrLinesBlock_ok (v : JVal) (h : addrParamOkB v = true) :
    ∃ r, scAddrLinesBlock v = .ok r := by
  rw [scAddrLinesBlock]
  split
  · next htr =>
    cases v with
    | str s =>
      apply bind_exists_ok
      · exact ⟨_, rfl⟩
      · intro sl hsl
        have hsleq : sl = JVal.str (strTake s 3) := by
          rw [pySliceTake] at hsl
          exact (Except.ok.inj hsl).symm
        subst hsleq
        apply bind_exists_ok
        · exact ⟨_, rfl⟩
        · intro items hi
          apply bind_exists_ok
          · apply mapM_addrLink_ok
            intro y hy
            rw [pyIterate] at hi
            have hieq := (Except.ok.inj hi).symm
            subst hieq
            rw [List.mem_map] at hy
            obtain ⟨c, _, hc⟩ := hy
            rw [← hc]
            simp [strOrFalsyB, isStrB]
          · intro links _
            exact ⟨_, rfl⟩
    | arr xs =>
      apply bind_exists_ok
      · exact ⟨_, rfl⟩
      · intro sl hsl
        have hsleq : sl = JVal.arr (xs.take 3) := by
          rw [pySliceTake] at hsl
          exact (Except.ok.inj hsl).symm
        subst hsleq
        apply bind_exists_ok
        · exact ⟨_, rfl⟩
        · intro items hi
          apply bind_exists_ok
          · apply mapM_addrLink_ok
            intro y hy
            rw [pyIterate] at hi
            have hieq := (Except.ok.inj hi).symm
            subst hieq
            rw [addrParamOkB, List.all_eq_true] at h
            exact h y (List.mem_of_mem_take hy)
          · intro links _
            exact ⟨_, rfl⟩
    | null => cases htr
    | bool b => simp [addrParamOkB, htr] at h
    | int n => simp [addrParamOkB, htr] at h
    | obj pfs => simp [addrParamOkB, htr] at h
  · exact ⟨_, rfl⟩

theorem scParamsBlock_ok (v : JVal) (h : objOrFalsyB v = true) :
    ∃ r, scParamsBlock v = .ok r := by
  rw [scParamsBlock]
  split
  · next htr =>
    rw [objOrFalsyB, htr, Bool.not_true, Bool.false_or] at h
    cases v with
    | obj pfs =>
      apply bind_exists_ok
      · exact ⟨_, rfl⟩
      · intro items _
        exact ⟨_, rfl⟩
    | null => cases h
    | bool b => cases h
    | int n => cases h
    | str s => cases h
    | arr xs => cases h
  · exact ⟨_, rfl⟩

theorem scDetailLines_ok (sfs : List (String × JVal))
    (haddr : addrParamOkB (objGetD sfs "addresses" (.arr [])) = true)
    (hpar : objOrFalsyB (objGetD sfs "parameters" (.obj [])) = true) :
    ∃ r, scDetailLines (.obj sfs) = .ok r := by
  rw [scDetailLines]
  apply bind_exists_ok
  · exact ⟨_, rfl⟩
  · intro methodName _
    apply bind_exists_ok
    · exact ⟨_, rfl⟩
    · intro methodSig _
      apply bind_exists_ok
      · exact ⟨_, rfl⟩
      · intro addresses ha
        have haeq : addresses = objGetD sfs "addresses" (.arr []) := by
          rw [pyGetD] at ha
          rw [objGetD]
          exact (Except.ok.inj ha).symm
        subst haeq
        apply bind_exists_ok
        · exact scAddrLinesBlock_ok _ haddr
        · intro addrLines _
          apply bind_exists_ok
          · exact ⟨_, rfl⟩
          · intro scAmount _
            apply bind_exists_ok
            · exact ⟨_, rfl⟩
            · intro params hp
              have hpeq : params = objGetD sfs "parameters" (.obj []) := by
                rw [pyGetD] at hp
                rw [objGetD]
                exact (Except.ok.inj hp).symm
              subst hpeq
              apply bind_exists_ok
              · exact scParamsBlock_ok _ hpar
              · intro paramLines _
                exact ⟨_, rfl⟩

theorem scBlock_ok (sc : JVal)
    (h : (!truthy sc ||
      (match sc with
       | .obj sfs =>
         addrParamOkB (objGetD sfs "addresses" (.arr [])) &&
         objOrFalsyB (objGetD sfs "parameters" (.obj []))
       | _ => false)) = true) :
    ∃ r, scBlock sc = .ok r := by
  rw [scBlock]
  split
  · next htr =>
    rw [htr, Bool.not_true, Bool.false_or] at h
    cases sc with
    | obj sfs =>
      rw [Bool.and_eq_true] at h
      exact scDetailLines_ok sfs h.1 h.2
    | null => cases h
    | bool b => cases h
    | int n => cases h
    | str s => cases h
    | arr xs => cases h
  · exact ⟨_, rfl⟩

theorem resolved_amount_intLike (fs : List (String × JVal))
    (hA : intLikeOrAbsentB fs "Amount" = true)
    (ha : intLikeOrAbsentB fs "amount" = true) :
    truthy (pyOr (objGet fs "Amount") (objGet fs "amount")) = true →
    intLikeB (pyOr (objGet fs "Amount") (objGet fs "amount")) = true := by
  intro htr
  rw [pyOr] at htr ⊢
  by_cases hc : truthy (objGet fs "Amount") = true
  · rw [if_pos hc] at htr ⊢
    rw [objGet] at hc ⊢
    cases hl : lookupField fs "Amount" with
    | none =>
      rw [hl] at hc
      exact absurd hc (by decide)
    | some v =>
      rw [intLikeOrAbsentB, hl] at hA
      simpa using hA
  · rw [if_neg hc] at htr ⊢
    rw [objGet] at htr ⊢
    cases hl : lookupField fs "amount" with
    | none =>
      rw [hl] at htr
      exact absurd htr (by decide)
    | some v =>
      rw [intLikeOrAbsentB, hl] at ha
      simpa using ha

/-- C2 (amended): on every object input whose read fields are
well-typed, `format_event` returns (never raises) either `null` or a
formatted event. -/
theorem format_event_total_when_welltyped (fs : List (String × JVal))
    (now : String) (h : WellTyped fs = true) :
    ∃ r, formatEventLines (.obj fs) now = .ok r := by
  rw [WellTyped] at h
  simp only [Bool.and_eq_true] at h
  obtain ⟨⟨⟨⟨⟨⟨⟨hED, htx⟩, hfrom⟩, hto⟩, hA⟩, ha⟩, hct⟩, hrest⟩ := h
  cases hED2 : objGetD fs "EventData" (.obj []) with
  | null => rw [hED2] at hED; cases hED
  | bool b => rw [hED2] at hED; cases hED
  | int n => rw [hED2] at hED; cases hED
  | str s2 => rw [hED2] at hED; cases hED
  | arr xs => rw [hED2] at hED; cases hED
  | obj efs =>
  rw [hED2] at hrest
  simp only [Bool.and_eq_true] at hrest
  obtain ⟨⟨hbal, hvotes⟩, hsc⟩ := hrest
  rw [formatEventLines]
  by_cases h1 : fs.isEmpty = true
  · rw [if_pos h1]
    exact ⟨none, rfl⟩
  · rw [if_neg h1]
    by_cases h2 : (!(aliasKeys.any fun k => pyHasKey fs k)) = true
    · rw [if_pos h2]
      exact ⟨none, rfl⟩
    · rw [if_neg h2]
      apply bind_exists_ok
      · exact txLineBlock_ok _ htx
      · intro txLines _
        apply bind_exists_ok
        · exact addrLineBlock_ok _ _ hfrom
        · intro fromLines _
          apply bind_exists_ok
          · exact addrLineBlock_ok _ _ hto
          · intro toLines _
            apply bind_exists_ok
            · exact amountLineBlock_ok _ (resolved_amount_intLike fs hA ha)
            · intro amountLines _
              apply bind_exists_ok
              · exact ctLineBlock_ok _ hct
              · intro ctLines _
                apply bind_exists_ok
                · rw [hED2]
                  exact branchLines_ok fs efs _ hbal hvotes hA
                · intro extraLines _
                  apply bind_exists_ok
                  · rw [hED2]
                    exact ⟨_, rfl⟩
                  · intro scGot hscGot
                    apply bind_exists_ok
                    · apply scBlock_ok
                      rw [hED2, pyGet] at hscGot
                      have hgeq : scGot = objGet efs "smartContract" := by
                        rw [objGet]
                        exact (Except.ok.inj hscGot).symm
                      rw [hgeq]
                      exact hsc
                    · intro scLines _
                      exact ⟨_, rfl⟩

/-- C2 counterexample: `format_event` raises `TypeError` on the object
input with `From = "a"` and a string-typed `Amount = "5"`, because
Python 3 forbids `"5" > 0`. -/
theorem format_event_raises_on_string_amount :
    TgBot.formatEventLines
      (.obj [("From", .str "a"), ("Amount", .str "5")]) "12:00:00" =
      .error .typeError := rfl

/-- Witness for C2 at a small well-typed object. -/
theorem format_event_total_when_welltyped_witness :
    WellTyped [("From", JVal.str "a"), ("Amount", JVal.int 0)] = true ∧
    ∃ r, formatEventLines
      (.obj [("From", JVal.str "a"), ("Amount", JVal.int 0)]) "12:00:00" =
      .ok r :=
  ⟨by decide,
   format_event_total_when_welltyped _ "12:00:00" (by decide)⟩

end TgBot

/-- C7: a notification object containing none of the alias fields
decodes to `null` (a non-event), and this is a return, not an error. -/
theorem non_event_decodes_to_null (fs : List (String × JVal)) (now : String)
    (h : ∀ k ∈ TgBot.aliasKeys, (lookupField fs k).isNone = true) :
    TgBot.formatEventLines (.obj fs) now = .ok none := by
  rw [TgBot.formatEventLines]
  by_cases h1 : fs.isEmpty = true
  · rw [if_pos h1]
  · rw [if_neg h1]
    have hany : (TgBot.aliasKeys.any fun k => pyHasKey fs k) = false := by
      rw [List.any_eq_false]
      intro k hk
      have := h k hk
      rw [pyHasKey]
      cases hl : lookupField fs k with
      | none => simp
      | some v => rw [hl] at this; cases this
    rw [hany]
    rfl

/-- Witness for C7 at a connection-acknowledgement payload. -/
theorem non_event_decodes_to_null_witness :
    (∀ k ∈ TgBot.aliasKeys,
      (lookupField [("type", JVal.str "connected")] k).isNone = true) ∧
    TgBot.formatEventLines (.obj [("type", JVal.str "connected")]) "12:00:00" =
      .ok none :=
  ⟨by decide, non_event_decodes_to_null _ "12:00:00" (by decide)⟩

/-! ## Scenario B (C3) -/

/-- The Scenario B notification payload. -/
def scenarioB : JVal :=
  .obj [("BlockNumber", .int 61090262),
        ("TransactionID",
         .str "bc5f7798fa35b8899a990e3cabd2baaccd3e69be10b934359864617fce1c4821"),
        ("From", .str "41d3682962027e721c5247a9faf7865fe4a71d5438"),
        ("To", .str "41eca9bc828a3005b9a3b909f2cc5c2a54794de05f"),
        ("Amount", .int 0),
        ("ContractType", .str "TriggerSmartContract"),
        ("Success", .bool true),
        ("EventData", .obj [("smartContract", .obj
          [("methodName", .str "transfer(address,uint256)"),
           ("methodSignature", .str "a9059cbb"),
           ("addresses", .arr [.str "41eca9bc828a3005b9a3b909f2cc5c2a54794de05f"]),
           ("amount", .str "1500000")])])]

/-- The nested smart-contract descriptor of Scenario B. -/
def scenarioBSC : JVal :=
  .obj [("methodName", .str "transfer(address,uint256)"),
        ("methodSignature", .str "a9059cbb"),
        ("addresses", .arr [.str "41eca9bc828a3005b9a3b909f2cc5c2a54794de05f"]),
        ("amount", .str "1500000")]

namespace TgBot

/-- The token amount in minor units read at lines 285-289: the `amount`
field of the descriptor, parsed with `int()`. -/
def scTokenAmountMinor (sc : JVal) : Option Int :=
  match pyGet sc "amount" with
  | .ok v => if truthy v then (pyIntConv v).toOption else none
  | .error _ => none

/-- The displayed major-unit amount of line 289: minor divided by 10^6. -/
def scTokenAmountMajor (sc : JVal) : Option ℚ :=
  (scTokenAmountMinor sc).map (fun n => (n : ℚ) / 1000000)

end TgBot

/-- The full message-line list produced for Scenario B. -/
def scenarioBLines : List String :=
  ["🔔 <b>New Transaction Detected</b>",
   "────────────────────────────────────────",
   "📦 Block: <a href=\"https://nile.tronscan.org/#/block/61090262\">61090262</a>",
   "🔗 TX: <a href=\"https://nile.tronscan.org/#/transaction/bc5f7798fa35b8899a990e3cabd2baaccd3e69be10b934359864617fce1c4821\">bc5f7798fa...7fce1c4821</a>",
   "📤 From: <a href=\"https://nile.tronscan.org/#/address/TVF2Mp9QY7FEGTnr3DBpFLobA6jguHyMvi\">TVF2Mp9QY7...A6jguHyMvi</a>",
   "📥 To: <a href=\"https://nile.tronscan.org/#/address/TXYZopYRdj2D9XRtbG411XZZ3kM5VkAeBf\">TXYZopYRdj...3kM5VkAeBf</a>",
   "📋 Type: <b>⚙️ Smart Contract Call</b>",
   "",
   "🔍 <b>Smart Contract Details:</b>",
   "   ⚙️ Method: <code>transfer(address,uint256)</code>",
   "   📍 Param Addresses:",
   "      • <a href=\"https://nile.tronscan.org/#/address/TXYZopYRdj2D9XRtbG411XZZ3kM5VkAeBf\">TXYZopYRdj...3kM5VkAeBf</a>",
   "   💵 Token Amount: <code>1.500000</code>",
   "\n⏰ 12:00:00"]

/-- C3: the Scenario B notification decodes to a call with method name
`transfer(address,uint256)`, exactly one address parameter whose text
form starts with `T`, token amount 1500000 minor units and 1.5 major
units, and `format_event` renders exactly the expected lines. -/
theorem scenarioB_decoded_call :
    pyGet scenarioBSC "methodName" =
      .ok (.str "transfer(address,uint256)") ∧
    pyGetD scenarioBSC "addresses" (.arr []) =
      .ok (.arr [.str "41eca9bc828a3005b9a3b909f2cc5c2a54794de05f"]) ∧
    TgBot.hex_to_base58 "41eca9bc828a3005b9a3b909f2cc5c2a54794de05f" =
      "TXYZopYRdj2D9XRtbG411XZZ3kM5VkAeBf" ∧
    strStartsWith (TgBot.hex_to_base58
      "41eca9bc828a3005b9a3b909f2cc5c2a54794de05f") "T" = true ∧
    TgBot.scTokenAmountMinor scenarioBSC = some 1500000 ∧
    (∃ q : ℚ, TgBot.scTokenAmountMajor scenarioBSC = some q ∧ q = 3 / 2) ∧
    TgBot.formatEventLines scenarioB "12:00:00" = .ok (some scenarioBLines) := by
  refine ⟨rfl, rfl, rfl, rfl, rfl, ⟨_, rfl, ?_⟩, rfl⟩
  norm_num [show (Char.toNat '1') - (Char.toNat '0') = 1 from by decide,
    show (Char.toNat '5') - (Char.toNat '0') = 5 from by decide]

/-! ## The WebSocket loop body (`process_websocket_events`, C6) -/

namespace TgBot

/-- Outcome of handling one parsed WebSocket message
(`bot.py` lines 528-560). -/
inductive BotAction where
  | skippedByFilter
  | sent (msg : String)
  | skippedInvalid
  | errorLogged (e : PyErr)
  deriving DecidableEq, Repr

/-- The smart-contract filter test (lines 532-538): true when the event
is to be skipped (`continue`) before any decoding happens. -/
def filterScCheck (event : JVal) : Except PyErr Bool := do
  let ctA ← pyGet event "ContractType"
  let ctB ← pyGet event "contractType"
  let evd ← pyGetD event "EventData" (.obj [])
  let hsA ← pyGet evd "smartContract"
  let hsB ← pyGet event "smartContract"
  pure (!jEqStr (pyOr ctA ctB) "TriggerSmartContract" &&
    !truthy (pyOr hsA hsB))

/-- The body of the `async for` loop after `json.loads` (lines 528-554);
the enclosing `except` clauses turn every uncaught exception into a
logged error that keeps the connection alive. -/
def handleCore (filter_sc : Bool) (event : JVal) (now : String) :
    Except PyErr BotAction := do
  if filter_sc then
    let skip ← filterScCheck event
    if skip then
      return .skippedByFilter
  let fm ← format_event event now
  match fm with
  | some m => return .sent m
  | none => return .skippedInvalid

def handle_ws_event (filter_sc : Bool) (event : JVal) (now : String) :
    BotAction :=
  match handleCore filter_sc event now with
  | .ok a => a
  | .error e => .errorLogged e

end TgBot

/-- A non-smart-contract event: a plain TRX transfer. -/
def c6Event : JVal :=
  .obj [("ContractType", .str "TransferContract"),
        ("From", .str "41d3682962027e721c5247a9faf7865fe4a71d5438"),
        ("Amount", .int 5000000)]

/-- C6 counterexample: with the smart-contract filter enabled, the
decodable non-matching event is skipped *before* decoding (`continue`),
not decoded-with-a-suppress-flag: the loop action carries no decoded
data, although `format_event` would have produced a message. -/
theorem filter_discards_before_decode :
    TgBot.handle_ws_event true c6Event "12:00:00" =
      TgBot.BotAction.skippedByFilter ∧
    (TgBot.format_event c6Event "12:00:00").isOk = true ∧
    ¬ TgBot.format_event c6Event "12:00:00" = .ok none := by
  refine ⟨rfl, rfl, ?_⟩
  intro h
  cases h

/-- C6 (amended): the filter is applied before decoding: a non-matching
event is dropped undecoded, and a matching event is processed exactly as
when the filter is off. -/
theorem filter_skips_before_decoding (event : JVal) (now : String) :
    (TgBot.filterScCheck event = .ok true →
      TgBot.handle_ws_event true event now = .skippedByFilter) ∧
    (TgBot.filterScCheck event = .ok false →
      TgBot.handle_ws_event true event now =
        TgBot.handle_ws_event false event now) := by
  constructor
  · intro h
    rw [TgBot.handle_ws_event, TgBot.handleCore]
    simp only [if_true, h, Bind.bind, Except.bind]
    rfl
  · intro h
    rw [TgBot.handle_ws_event, TgBot.handleCore, TgBot.handle_ws_event,
      TgBot.handleCore]
    simp only [if_true, h, Bind.bind, Except.bind]
    rfl

/-- Witness for C6 at the concrete non-matching and matching events. -/
theorem filter_skips_before_decoding_witness :
    TgBot.filterScCheck c6Event = .ok true ∧
    TgBot.handle_ws_event true c6Event "12:00:00" =
      TgBot.BotAction.skippedByFilter ∧
    TgBot.filterScCheck scenarioB = .ok false ∧
    TgBot.handle_ws_event true scenarioB "12:00:00" =
      TgBot.handle_ws_event false scenarioB "12:00:00" :=
  ⟨rfl,
   (filter_skips_before_decoding c6Event "12:00:00").1 rfl,
   rfl,
   (filter_skips_before_decoding scenarioB "12:00:00").2 rfl⟩

/-! ## The `active_monitors` session registry (`bot.py`, C8/C10) -/

namespace TgBot

/-- The `active_monitors` global: chat id → monitor key → task id. -/
abbrev Registry := List (Int × List (String × Nat))

def innerLookup : List (String × Nat) → String → Option Nat
  | [], _ => none
  | (k, v) :: fs, key => if k = key then some v else innerLookup fs key

def regLookup : Registry → Int → Option (List (String × Nat))
  | [], _ => none
  | (k, v) :: fs, key => if k = key then some v else regLookup fs key

/-- `d[key] = t` on an inner monitor dict. -/
def innerInsert : List (String × Nat) → String → Nat → List (String × Nat)
  | [], key, t => [(key, t)]
  | (k, v) :: fs, key, t =>
    if k = key then (key, t) :: fs else (k, v) :: innerInsert fs key t

/-- `active_monitors[chat] = m`. -/
def regInsert : Registry → Int → List (String × Nat) → Registry
  | [], key, m => [(key, m)]
  | (k, v) :: fs, key, m =>
    if k = key then (key, m) :: fs else (k, v) :: regInsert fs key m

/-- `del d[key]` on an inner monitor dict. -/
def innerErase : List (String × Nat) → String → List (String × Nat)
  | [], _ => []
  | (k, v) :: fs, key =>
    if k = key then innerErase fs key else (k, v) :: innerErase fs key

/-- `del active_monitors[chat]`. -/
def regErase : Registry → Int → Registry
  | [], _ => []
  | (k, v) :: fs, key =>
    if k = key then regErase fs key else (k, v) :: regErase fs key

/-- Registry-visible outcome of `/monitor`. -/
inductive StartOutcome where
  | invalidAddress
  | alreadyMonitoring
  | started
  deriving DecidableEq, Repr

/-- The registry manipulation of `cmd_monitor` (`bot.py` lines
620-653): validate, reject a live duplicate key, otherwise store the
task under `(chat, address)`. -/
def cmd_monitor_reg (chat : Int) (address : String) (task : Nat)
    (reg : Registry) : Registry × StartOutcome :=
  if ¬ strStartsWith address "T" = true ∨ strLength address < 30 then
    (reg, .invalidAddress)
  else
    match regLookup reg chat with
    | some inner =>
      if (innerLookup inner address).isSome then (reg, .alreadyMonitoring)
      else (regInsert reg chat (innerInsert inner address task), .started)
    | none => (regInsert reg chat (innerInsert [] address task), .started)

/-- Registry-visible outcome of `/stop_monitor`. -/
inductive StopOutcome where
  | stoppedGlobal
  | globalNotRunning
  | notMonitoring
  | stopped
  | stoppedSC
  deriving DecidableEq, Repr

/-- `del active_monitors[chat][key]` followed by the empty-dict cleanup
(`bot.py` lines 816-819 and the analogous 371-376 / 433-439 / 503-508):
remove the key; if the chat has no monitors left, remove the chat. -/
def removeMonitorKey (chat : Int) (key : String) (reg : Registry) : Registry :=
  match regLookup reg chat with
  | none => reg
  | some inner =>
    let inner2 := innerErase inner key
    let reg2 := regInsert reg chat inner2
    if inner2.isEmpty then regErase reg2 chat else reg2

/-- The registry manipulation of `cmd_stop_monitor` (lines 749-826):
the `global` branch stops the `GLOBAL_SC` monitor, otherwise the plain
key is tried first, then the `_SC` key. -/
def cmd_stop_monitor_reg (chat : Int) (address : String) (reg : Registry) :
    Registry × StopOutcome :=
  if strToLower address = "global" then
    match regLookup reg chat with
    | some inner =>
      if (innerLookup inner "GLOBAL_SC").isSome then
        (removeMonitorKey chat "GLOBAL_SC" reg, .stoppedGlobal)
      else (reg, .globalNotRunning)
    | none => (reg, .globalNotRunning)
  else
    match regLookup reg chat with
    | none => (reg, .notMonitoring)
    | some inner =>
      if (innerLookup inner address).isSome then
        (removeMonitorKey chat address reg, .stopped)
      else if (innerLookup inner (address ++ "_SC")).isSome then
        (removeMonitorKey chat (address ++ "_SC") reg, .stoppedSC)
      else (reg, .notMonitoring)

/-- The `finally` cleanup of the three monitor tasks (`monitor_address`
lines 371-376, `monitor_smart_contracts` 433-439,
`monitor_all_smart_contracts` 503-508), with `key` the plain address,
the `_SC` key, or `GLOBAL_SC`. -/
def monitor_cleanup (chat : Int) (key : String) (reg : Registry) : Registry :=
  match regLookup reg chat with
  | none => reg
  | some inner =>
    if (innerLookup inner key).isSome then removeMonitorKey chat key reg
    else reg

/-- The registry effect of `cmd_stop_all` (lines 829-860). -/
def cmd_stop_all_reg (chat : Int) (reg : Registry) : Registry :=
  match regLookup reg chat with
  | some _ => regErase reg chat
  | none => reg

end TgBot

/-! ### Registry lemmas -/

namespace TgBot

theorem regLookup_regInsert (r : Registry) (k : Int) (m : List (String × Nat)) :
    regLookup (regInsert r k m) k = some m := by
  induction r with
  | nil => simp [regInsert, regLookup]
  | cons p t ih =>
    rcases p with ⟨k2, v⟩
    by_cases h : k2 = k
    · simp [regInsert, regLookup, h]
    · simp [regInsert, regLookup, h, ih]

theorem innerLookup_innerInsert (m : List (String × Nat)) (k : String) (t : Nat) :
    innerLookup (innerInsert m k t) k = some t := by
  induction m with
  | nil => simp [innerInsert, innerLookup]
  | cons p rest ih =>
    rcases p with ⟨k2, v⟩
    by_cases h : k2 = k
    · simp [innerInsert, innerLookup, h]
    · simp [innerInsert, innerLookup, h, ih]

theorem innerLookup_innerErase (m : List (String × Nat)) (k : String) :
    innerLookup (innerErase m k) k = none := by
  induction m with
  | nil => rfl
  | cons p rest ih =>
    rcases p with ⟨k2, v⟩
    by_cases h : k2 = k
    · simp [innerErase, h, ih]
    · simp [innerErase, innerLookup, h, ih]

theorem regLookup_regErase (r : Registry) (k : Int) :
    regLookup (regErase r k) k = none := by
  induction r with
  | nil => rfl
  | cons p t ih =>
    rcases p with ⟨k2, v⟩
    by_cases h : k2 = k
    · simp [regErase, h, ih]
    · simp [regErase, regLookup, h, ih]

theorem mem_regInsert (r : Registry) (k : Int) (m : List (String × Nat))
    (p : Int × List (String × Nat)) (hp : p ∈ regInsert r k m) :
    p = (k, m) ∨ p ∈ r := by
  induction r with
  | nil => simpa [regInsert] using hp
  | cons q t ih =>
    rcases q with ⟨k2, v⟩
    by_cases h : k2 = k
    · rw [regInsert, if_pos h] at hp
      rcases List.mem_cons.mp hp with hp | hp
      · exact Or.inl hp
      · exact Or.inr (List.mem_cons.mpr (Or.inr hp))
    · rw [regInsert, if_neg h] at hp
      rcases List.mem_cons.mp hp with hp | hp
      · exact Or.inr (List.mem_cons.mpr (Or.inl hp))
      · rcases ih hp with hp2 | hp2
        · exact Or.inl hp2
        · exact Or.inr (List.mem_cons.mpr (Or.inr hp2))

theorem mem_regErase (r : Registry) (k : Int)
    (p : Int × List (String × Nat)) (hp : p ∈ regErase r k) :
    p ∈ r ∧ ¬ p.1 = k := by
  induction r with
  | nil => cases hp
  | cons q t ih =>
    rcases q with ⟨k2, v⟩
    by_cases h : k2 = k
    · rw [regErase, if_pos h] at hp
      obtain ⟨h1, h2⟩ := ih hp
      exact ⟨List.mem_cons.mpr (Or.inr h1), h2⟩
    · rw [regErase, if_neg h] at hp
      rcases List.mem_cons.mp hp with hp | hp
      · refine ⟨List.mem_cons.mpr (Or.inl hp), ?_⟩
        rw [hp]
        exact h
      · obtain ⟨h1, h2⟩ := ih hp
        exact ⟨List.mem_cons.mpr (Or.inr h1), h2⟩

/-- The cleanliness invariant: no chat id maps to an empty monitor dict. -/
def noEmptyInner (reg : Registry) : Bool := reg.all (fun p => !p.2.isEmpty)

theorem noEmptyInner_regErase (reg : Registry) (k : Int)
    (h : noEmptyInner reg = true) : noEmptyInner (regErase reg k) = true := by
  rw [noEmptyInner, List.all_eq_true] at h ⊢
  intro p hp
  exact h p (mem_regErase reg k p hp).1

theorem noEmptyInner_regInsert (reg : Registry) (k : Int)
    (m : List (String × Nat)) (h : noEmptyInner reg = true)
    (hm : ¬ m.isEmpty = true) : noEmptyInner (regInsert reg k m) = true := by
  rw [noEmptyInner, List.all_eq_true] at h ⊢
  intro p hp
  rcases mem_regInsert reg k m p hp with hp2 | hp2
  · rw [hp2]
    simpa using hm
  · exact h p hp2

theorem noEmptyInner_removeMonitorKey (chat : Int) (key : String)
    (reg : Registry) (h : noEmptyInner reg = true) :
    noEmptyInner (removeMonitorKey chat key reg) = true := by
  rw [removeMonitorKey]
  cases hrg : regLookup reg chat with
  | none => exact h
  | some inner =>
    dsimp only
    by_cases hie : (innerErase inner key).isEmpty = true
    · rw [if_pos hie]
      rw [noEmptyInner, List.all_eq_true]
      intro p hp
      obtain ⟨hp1, hp2⟩ := mem_regErase _ _ _ hp
      rcases mem_regInsert _ _ _ _ hp1 with hp3 | hp3
      · exact absurd (by rw [hp3]) hp2
      · rw [noEmptyInner, List.all_eq_true] at h
        exact h p hp3
    · rw [if_neg hie]
      exact noEmptyInner_regInsert reg chat _ h hie

end TgBot

/-- C8: at most one live session per key: a second `start` with the
same `(chat, address)` key is rejected as a duplicate and leaves the
registry unchanged; after `stop` removes the session, a third `start`
succeeds. -/
theorem session_registry_at_most_one (reg : TgBot.Registry) (chat : Int)
    (address : String) (t1 t2 t3 : Nat)
    (hT : strStartsWith address "T" = true)
    (hlen : 30 ≤ strLength address)
    (hglobal : ¬ strToLower address = "global")
    (habsent : TgBot.innerLookup ((TgBot.regLookup reg chat).getD [])
      address = none) :
    (TgBot.cmd_monitor_reg chat address t1 reg).2 = .started ∧
    TgBot.cmd_monitor_reg chat address t2
        (TgBot.cmd_monitor_reg chat address t1 reg).1 =
      ((TgBot.cmd_monitor_reg chat address t1 reg).1, .alreadyMonitoring) ∧
    (TgBot.cmd_stop_monitor_reg chat address
      (TgBot.cmd_monitor_reg chat address t1 reg).1).2 = .stopped ∧
    (TgBot.cmd_monitor_reg chat address t3
      (TgBot.cmd_stop_monitor_reg chat address
        (TgBot.cmd_monitor_reg chat address t1 reg).1).1).2 = .started := by
  have hvalid : ¬(¬ strStartsWith address "T" = true ∨ strLength address < 30) := by
    push_neg
    exact ⟨hT, by omega⟩
  have hr1 : TgBot.cmd_monitor_reg chat address t1 reg =
      (TgBot.regInsert reg chat
        (TgBot.innerInsert ((TgBot.regLookup reg chat).getD []) address t1),
       .started) := by
    rw [TgBot.cmd_monitor_reg, if_neg hvalid]
    cases hrg : TgBot.regLookup reg chat with
    | none => rfl
    | some inner =>
      rw [hrg] at habsent
      simp only [Option.getD_some] at habsent
      dsimp only
      rw [habsent]
      rfl
  rw [hr1]
  have hdup : TgBot.cmd_monitor_reg chat address t2
      (TgBot.regInsert reg chat
        (TgBot.innerInsert ((TgBot.regLookup reg chat).getD []) address t1)) =
      (TgBot.regInsert reg chat
        (TgBot.innerInsert ((TgBot.regLookup reg chat).getD []) address t1),
       .alreadyMonitoring) := by
    rw [TgBot.cmd_monitor_reg, if_neg hvalid]
    simp only [TgBot.regLookup_regInsert, TgBot.innerLookup_innerInsert,
      Option.isSome_some, if_true]
  have hstop : TgBot.cmd_stop_monitor_reg chat address
      (TgBot.regInsert reg chat
        (TgBot.innerInsert ((TgBot.regLookup reg chat).getD []) address t1)) =
      (TgBot.removeMonitorKey chat address
        (TgBot.regInsert reg chat
          (TgBot.innerInsert ((TgBot.regLookup reg chat).getD []) address t1)),
       .stopped) := by
    rw [TgBot.cmd_stop_monitor_reg, if_neg hglobal]
    simp only [TgBot.regLookup_regInsert, TgBot.innerLookup_innerInsert,
      Option.isSome_some, if_true]
  refine ⟨rfl, hdup, by rw [hstop], ?_⟩
  rw [hstop]
  rw [TgBot.removeMonitorKey]
  simp only [TgBot.regLookup_regInsert]
  by_cases hie : (TgBot.innerErase
      (TgBot.innerInsert ((TgBot.regLookup reg chat).getD []) address t1)
      address).isEmpty = true
  · rw [if_pos hie]
    rw [TgBot.cmd_monitor_reg, if_neg hvalid, TgBot.regLookup_regErase]
  · rw [if_neg hie]
    rw [TgBot.cmd_monitor_reg, if_neg hvalid, TgBot.regLookup_regInsert]
    simp only [TgBot.innerLookup_innerErase, Option.isSome_none]
    rfl

/-- Witness for C8 on an initially empty registry and the USDT address. -/
theorem session_registry_at_most_one_witness :
    (strStartsWith "TXYZopYRdj2D9XRtbG411XZZ3kM5VkAeBf" "T" = true ∧
     30 ≤ strLength "TXYZopYRdj2D9XRtbG411XZZ3kM5VkAeBf" ∧
     ¬ strToLower "TXYZopYRdj2D9XRtbG411XZZ3kM5VkAeBf" = "global" ∧
     TgBot.innerLookup ((TgBot.regLookup [] 5).getD [])
       "TXYZopYRdj2D9XRtbG411XZZ3kM5VkAeBf" = none) ∧
    (TgBot.cmd_monitor_reg 5 "TXYZopYRdj2D9XRtbG411XZZ3kM5VkAeBf" 1 []).2 =
      .started ∧
    TgBot.cmd_monitor_reg 5 "TXYZopYRdj2D9XRtbG411XZZ3kM5VkAeBf" 2
        (TgBot.cmd_monitor_reg 5 "TXYZopYRdj2D9XRtbG411XZZ3kM5VkAeBf" 1 []).1 =
      ((TgBot.cmd_monitor_reg 5 "TXYZopYRdj2D9XRtbG411XZZ3kM5VkAeBf" 1 []).1,
       .alreadyMonitoring) ∧
    (TgBot.cmd_stop_monitor_reg 5 "TXYZopYRdj2D9XRtbG411XZZ3kM5VkAeBf"
      (TgBot.cmd_monitor_reg 5 "TXYZopYRdj2D9XRtbG411XZZ3kM5VkAeBf" 1 []).1).2 =
      .stopped ∧
    (TgBot.cmd_monitor_reg 5 "TXYZopYRdj2D9XRtbG411XZZ3kM5VkAeBf" 3
      (TgBot.cmd_stop_monitor_reg 5 "TXYZopYRdj2D9XRtbG411XZZ3kM5VkAeBf"
        (TgBot.cmd_monitor_reg 5 "TXYZopYRdj2D9XRtbG411XZZ3kM5VkAeBf" 1 []).1).1).2 =
      .started := by
  refine ⟨⟨by decide, by decide, by decide, by decide⟩, ?_⟩
  exact session_registry_at_most_one [] 5 _ 1 2 3 (by decide) (by decide)
    (by decide) (by decide)

/-- C10: the registry cleanliness invariant: the monitor-task cleanup,
the stop command, and the stop-all command never leave a chat id mapped
to an empty monitor dictionary. -/
theorem registry_no_empty_inner (reg : TgBot.Registry) (chat : Int)
    (key address : String) (h : TgBot.noEmptyInner reg = true) :
    TgBot.noEmptyInner (TgBot.monitor_cleanup chat key reg) = true ∧
    TgBot.noEmptyInner ((TgBot.cmd_stop_monitor_reg chat address reg).1) = true ∧
    TgBot.noEmptyInner (TgBot.cmd_stop_all_reg chat reg) = true := by
  refine ⟨?_, ?_, ?_⟩
  · rw [TgBot.monitor_cleanup]
    cases hrg : TgBot.regLookup reg chat with
    | none => exact h
    | some inner =>
      dsimp only
      by_cases hk : (TgBot.innerLookup inner key).isSome = true
      · rw [if_pos hk]
        exact TgBot.noEmptyInner_removeMonitorKey chat key reg h
      · rw [if_neg hk]
        exact h
  · rw [TgBot.cmd_stop_monitor_reg]
    by_cases hg : strToLower address = "global"
    · rw [if_pos hg]
      cases hrg : TgBot.regLookup reg chat with
      | none => exact h
      | some inner =>
        dsimp only
        by_cases hk : (TgBot.innerLookup inner "GLOBAL_SC").isSome = true
        · rw [if_pos hk]
          exact TgBot.noEmptyInner_removeMonitorKey chat "GLOBAL_SC" reg h
        · rw [if_neg hk]
          exact h
    · rw [if_neg hg]
      cases hrg : TgBot.regLookup reg chat with
      | none => exact h
      | some inner =>
        dsimp only
        by_cases hk : (TgBot.innerLookup inner address).isSome = true
        · rw [if_pos hk]
          exact TgBot.noEmptyInner_removeMonitorKey chat address reg h
        · rw [if_neg hk]
          by_cases hk2 : (TgBot.innerLookup inner (address ++ "_SC")).isSome = true
          · rw [if_pos hk2]
            exact TgBot.noEmptyInner_removeMonitorKey chat (address ++ "_SC") reg h
          · rw [if_neg hk2]
            exact h
  · rw [TgBot.cmd_stop_all_reg]
    cases hrg : TgBot.regLookup reg chat with
    | none => exact h
    | some inner => exact TgBot.noEmptyInner_regErase reg chat h

/-- Witness for C10 on a one-entry registry. -/
theorem registry_no_empty_inner_witness :
    TgBot.noEmptyInner [(5, [("TXYZ", 1)])] = true ∧
    TgBot.noEmptyInner (TgBot.monitor_cleanup 5 "TXYZ"
      [(5, [("TXYZ", 1)])]) = true ∧
    TgBot.noEmptyInner ((TgBot.cmd_stop_monitor_reg 5 "TXYZ"
      [(5, [("TXYZ", 1)])]).1) = true ∧
    TgBot.noEmptyInner (TgBot.cmd_stop_all_reg 5
      [(5, [("TXYZ", 1)])]) = true := by
  refine ⟨by decide, ?_⟩
  exact registry_no_empty_inner [(5, [("TXYZ", 1)])] 5 "TXYZ" "TXYZ" (by decide)
